import Mathlib

/-!
Verification of the NetForge backend (Forge SRE agent platform).

This file embeds, as executable Lean definitions, the parts of the Python
source that the specification's claims are about:

* `backend/memory/store.py`      — pattern merge (`add_pattern`, `_similar`)
* `backend/cluster/coordinator.py` — MAPE-K coordinator state machine
* `backend/api/routes/cluster_routes.py` — manual scale / complete-work routes
* `backend/agent/agent.py`       — deterministic demo fallback report
* `backend/agent/network_tester.py` — strategy generation and percentiles
* `backend/agent/tools/testsprite.py` — two-phase scale-stability validation

Python dictionaries are modelled as insertion-ordered association lists,
machine floats as exact rationals, `time.monotonic()` values as rationals
passed explicitly, and every random draw as an explicit oracle argument, so
each theorem quantifies over all possible draws.
-/

/-! ## Python-style string helpers -/

/-- Python `str.lower()` restricted to the character-wise lowering used here. -/
def pyLower (s : String) : String := ⟨s.toList.map Char.toLower⟩

/-- Split a character list on whitespace runs, dropping empties (`acc` holds
the current word, reversed). -/
def wordsAux : List Char → List Char → List String
  | [], acc => if acc.isEmpty then [] else [⟨acc.reverse⟩]
  | c :: cs, acc =>
    if c.isWhitespace then
      if acc.isEmpty then wordsAux cs [] else ⟨acc.reverse⟩ :: wordsAux cs []
    else wordsAux cs (c :: acc)

/-- Python `str.split()` with no argument: split on whitespace runs, no empties. -/
def pyWords (s : String) : List String := wordsAux s.toList []

/-- Check whether `needle` occurs at the head of `hay` (character lists). -/
def leadsWith : List Char → List Char → Bool
  | [], _ => true
  | _ :: _, [] => false
  | a :: as, b :: bs => a == b && leadsWith as bs

/-- Check whether `needle` occurs somewhere inside `hay` (character lists). -/
def hasSub (needle : List Char) : List Char → Bool
  | [] => leadsWith needle []
  | b :: bs => leadsWith needle (b :: bs) || hasSub needle (bs)

/-- Python `needle in hay` on strings (substring containment). -/
def pyIn (needle hay : String) : Bool := hasSub needle.toList hay.toList

/-! ## Memory store: patterns (`backend/memory/store.py`) -/

/-- Word set of a string as in `_similar`: lower-case, split, de-duplicate. -/
def wordSet (s : String) : List String := (pyWords (pyLower s)).dedup

/-- Size of the intersection of two word sets (represented as dedup lists). -/
def overlapCount (a b : List String) : Nat := (a.filter (fun w => w ∈ b)).length

/-- Embeds `store._similar`: same first 40 chars (case-insensitive) or word
overlap `|A ∩ B| / max(|A|, |B|) > 0.6`. -/
def _similar (a b : String) : Bool :=
  if ((a.toList.take 40).map Char.toLower) = ((b.toList.take 40).map Char.toLower) then
    true
  else
    let wa := wordSet a
    let wb := wordSet b
    if wa.isEmpty || wb.isEmpty then false
    else decide ((overlapCount wa wb : ℚ) / (max wa.length wb.length : ℚ) > 6/10)

/-- The similarity rule as the spec sentence words it (for claim C3 only):
first-40-characters equal case-insensitively, or word-set Jaccard overlap
`|A ∩ B| / |A ∪ B| > 0.6`. -/
def similarSpecJaccard (a b : String) : Bool :=
  if ((a.toList.take 40).map Char.toLower) = ((b.toList.take 40).map Char.toLower) then
    true
  else
    let wa := wordSet a
    let wb := wordSet b
    if wa.isEmpty || wb.isEmpty then false
    else decide ((overlapCount wa wb : ℚ) / (((wa ++ wb).dedup).length : ℚ) > 6/10)

/-- A pattern as passed into `add_pattern` (a Python dict; absent keys are
`none`). -/
structure PatternIn where
  id : Option String
  ptype : String
  description : String
  confidence : Option ℚ
  occurrences : Option Nat
  recommendation : Option String
deriving DecidableEq

/-- A pattern as stored in the memory file (after `add_pattern` has set `id`
and defaulted `occurrences`). -/
structure Pattern where
  id : String
  ptype : String
  description : String
  confidence : Option ℚ
  occurrences : Option Nat
  recommendation : Option String
  firstDetected : String
  lastConfirmed : String
deriving DecidableEq

/-- The merge step of `add_pattern` applied to an existing entry. -/
def mergePattern (e : Pattern) (p : PatternIn) (nowIso : String) : Pattern :=
  { e with
    lastConfirmed := nowIso
    occurrences := some (e.occurrences.getD 1 + 1)
    confidence := some (min (99/100 : ℚ) (e.confidence.getD (1/2) + 2/100))
    recommendation := match p.recommendation with
      | some r => some r
      | none => e.recommendation }

/-- The insert step of `add_pattern` (no existing entry matched). -/
def insertPattern (p : PatternIn) (freshId nowIso : String) : Pattern :=
  { id := p.id.getD freshId
    ptype := p.ptype
    description := p.description
    confidence := p.confidence
    occurrences := some (p.occurrences.getD 1)
    recommendation := p.recommendation
    firstDetected := nowIso
    lastConfirmed := nowIso }

/-- Embeds the body of `store.add_pattern` acting on one service's pattern
list: scan for the first entry with identical `type` and a similar
description; merge into it, otherwise append a new entry.  Returns the new
list and the id the Python function returns. -/
def addPatternList : List Pattern → PatternIn → String → String → List Pattern × String
  | [], p, freshId, nowIso => ([insertPattern p freshId nowIso], p.id.getD freshId)
  | e :: rest, p, freshId, nowIso =>
    if e.ptype = p.ptype ∧ _similar e.description p.description then
      (mergePattern e p nowIso :: rest, e.id)
    else
      let r := addPatternList rest p freshId nowIso
      (e :: r.1, r.2)

/-- A stored baseline (`update_baseline` payload plus `measured_at`). -/
structure Baseline where
  metrics : List (String × ℚ)
  measured_at : String
deriving DecidableEq

/-- One entry of `analysis_history` (`record_analysis` payload). -/
structure Session where
  session_id : String
  trigger : String
  services_analyzed : List String
  findings_summary : String
  actions_taken : List String
deriving DecidableEq

/-- Per-service slice of the memory document.  Stored insights are kept as
opaque records (their ids): no claim inspects insight contents held in the
store. -/
structure ServiceData where
  baselineMetrics : Option Baseline
  patterns : List Pattern
  insights : List String
deriving DecidableEq

/-- Empty service slice created by `_ensure_service`. -/
def emptyServiceData : ServiceData :=
  { baselineMetrics := none, patterns := [], insights := [] }

/-- The memory document (`insights.json`): an insertion-ordered map from
service name to per-service data, plus global patterns and history. -/
structure Memory where
  services : List (String × ServiceData)
  globalPatterns : List Pattern
  analysisHistory : List Session
deriving DecidableEq

/-- Embeds `store._ensure_service`. -/
def ensureService (m : Memory) (s : String) : Memory :=
  if (m.services.find? (fun sd => sd.1 = s)).isSome then m
  else { m with services := m.services ++ [(s, emptyServiceData)] }

/-- Patterns stored for one service (empty when absent). -/
def servicePatterns (m : Memory) (s : String) : List Pattern :=
  match m.services.find? (fun sd => sd.1 = s) with
  | some sd => sd.2.patterns
  | none => []

/-- Replace one service's pattern list in the document. -/
def setServicePatterns (m : Memory) (s : String) (ps : List Pattern) : Memory :=
  { m with services := m.services.map (fun sd => if sd.1 = s then (sd.1, { sd.2 with patterns := ps }) else sd) }

/-- Embeds `store.add_pattern`: ensure the service exists, then merge or
append as `addPatternList` does; returns the updated document and the id. -/
def add_pattern (m : Memory) (s : String) (p : PatternIn) (freshId nowIso : String) :
    Memory × String :=
  let m1 := ensureService m s
  let r := addPatternList (servicePatterns m1 s) p freshId nowIso
  (setServicePatterns m1 s r.1, r.2)

/-- Embeds `store.get_all_patterns`: service-level patterns tagged by service
name, followed by global patterns tagged "global". -/
def get_all_patterns (m : Memory) : List (String × Pattern) :=
  (m.services.flatMap (fun sd => sd.2.patterns.map (fun p => (sd.1, p)))) ++
    m.globalPatterns.map (fun p => ("global", p))

/-- The empty default memory document. -/
def defaultMemory : Memory :=
  { services := [], globalPatterns := [], analysisHistory := [] }

/-! ## Rounding and Python numeric helpers -/

/-- Round-half-to-even on rationals (Python `round` on an exact value). -/
def roundHalfEven (x : ℚ) : ℤ :=
  let f := ⌊x⌋
  let r := x - (f : ℚ)
  if r < 1/2 then f
  else if r > 1/2 then f + 1
  else if 2 ∣ f then f else f + 1

/-- Python `round(x, 1)` on an exact rational value. -/
def round1 (x : ℚ) : ℚ := (roundHalfEven (x * 10) : ℚ) / 10

/-- Python `int(x)`: truncation toward zero. -/
def pyInt (q : ℚ) : ℤ := if 0 ≤ q then ⌊q⌋ else -⌊-q⌋

/-! ## Percentiles (`backend/agent/network_tester.py`, test runners) -/

/-- The percentile index `max(0, int(len(lst) * pct / 100) - 1)`. -/
def percentileIdx (n : Nat) (pct : ℚ) : Nat :=
  (max 0 (pyInt ((n : ℚ) * pct / 100) - 1)).toNat

/-- Insert into an ascending list (helper for `sortAsc`). -/
def insortAsc (x : ℚ) : List ℚ → List ℚ
  | [] => [x]
  | y :: ys => if x ≤ y then x :: y :: ys else y :: insortAsc x ys

/-- Python `sorted` on a list of latencies (ascending). -/
def sortAsc (l : List ℚ) : List ℚ := l.foldr insortAsc []

/-- Embeds the inner `percentile` of `_run_latency_probe` (its argument is the
already-sorted sample). -/
def percentileProbe (lst : List ℚ) (pct : ℚ) : ℚ :=
  round1 (lst.getD (percentileIdx lst.length pct) 0)

/-- Embeds the inner `percentile` of `_run_load_burst` (sorts its argument
itself). -/
def percentileBurst (lst : List ℚ) (pct : ℚ) : ℚ :=
  let s := sortAsc lst
  round1 (s.getD (percentileIdx s.length pct) 0)

/-! ## Two-phase scale-stability validation (`backend/agent/tools/testsprite.py`) -/

/-- One phase measurement of `validate_scale_stability`. -/
structure PhaseResult where
  passed : Nat
  failed : Nat
  pass_rate : ℚ
  p99_latency_ms : ℚ
deriving DecidableEq

/-- The delta block of a stability result. -/
structure StabilityDelta where
  latency_ms : ℚ
  pass_rate_pct : ℚ
deriving DecidableEq

/-- The JSON payload `validate_scale_stability` returns. -/
structure StabilityResult where
  service : String
  scale_direction : String
  instance_before : Nat
  instance_after : Nat
  phase_1_pre_scale : PhaseResult
  phase_2_post_scale : PhaseResult
  delta : StabilityDelta
  network_stable : Bool
  verdict : String
deriving DecidableEq

/-- The stability rule as the spec states it: post pass-rate at least 95% of
pre, and post p99 at most 120% of pre. -/
def stableRule (pre post : PhaseResult) : Prop :=
  post.pass_rate ≥ (95/100 : ℚ) * pre.pass_rate ∧
    post.p99_latency_ms ≤ (120/100 : ℚ) * pre.p99_latency_ms

/-- Embeds the `DEMO_MODE` branch of `validate_scale_stability`: fixed
pre-scale baseline, direction-dependent post-scale figures. -/
def validate_scale_stability_demo (service_name scale_direction : String)
    (instance_before instance_after : Nat) : StabilityResult :=
  let pre_p99 : ℚ := 320
  let pre_pass : Nat := 49
  let pre_total : Nat := 50
  let post_p99 : ℚ := if scale_direction = "up" then pre_p99 * (85/100) else pre_p99 * (108/100)
  let post_pass : Nat := if scale_direction = "up" then 50 else 48
  let post_total : Nat := 50
  let latency_delta := round1 (post_p99 - pre_p99)
  let pass_rate_delta := round1 (((post_pass : ℚ) / post_total - (pre_pass : ℚ) / pre_total) * 100)
  let stable := decide (|latency_delta| < pre_p99 * (20/100)) &&
    decide ((post_pass : ℚ) / post_total ≥ 94/100)
  { service := service_name
    scale_direction := scale_direction
    instance_before := instance_before
    instance_after := instance_after
    phase_1_pre_scale :=
      { passed := pre_pass, failed := pre_total - pre_pass
        pass_rate := round1 ((pre_pass : ℚ) / pre_total * 100), p99_latency_ms := pre_p99 }
    phase_2_post_scale :=
      { passed := post_pass, failed := post_total - post_pass
        pass_rate := round1 ((post_pass : ℚ) / post_total * 100), p99_latency_ms := round1 post_p99 }
    delta := { latency_ms := latency_delta, pass_rate_pct := pass_rate_delta }
    network_stable := stable
    verdict := if stable then "STABLE" else "UNSTABLE — regression detected" }

/-- Embeds the production branch of `validate_scale_stability`, applied to the
two phase measurements returned by the validation provider. -/
def validate_scale_stability_prod (service_name scale_direction : String)
    (instance_before instance_after : Nat) (pre post : PhaseResult) : StabilityResult :=
  let stable := decide (post.pass_rate ≥ pre.pass_rate * (95/100)) &&
    decide (post.p99_latency_ms ≤ pre.p99_latency_ms * (120/100))
  { service := service_name
    scale_direction := scale_direction
    instance_before := instance_before
    instance_after := instance_after
    phase_1_pre_scale := pre
    phase_2_post_scale := post
    delta :=
      { latency_ms := round1 (post.p99_latency_ms - pre.p99_latency_ms)
        pass_rate_pct := round1 (post.pass_rate - pre.pass_rate) }
    network_stable := stable
    verdict := if stable then "STABLE" else "UNSTABLE — regression detected" }

/-! ## Strategy generation (`backend/agent/network_tester.py`) -/

/-- A single quote character, used inside generated description strings. -/
def sglq : String := ⟨[Char.ofNat 39]⟩

/-- The fixed core endpoint paths (`CORE_ENDPOINTS`). -/
def coreEndpointPaths : List String :=
  ["/health", "/api/agent/health", "/api/cluster/status", "/api/graph/",
   "/api/insights/", "/api/cluster/events"]

/-- Keywords that trigger a latency probe. -/
def latencyKeywords : List String := ["latency", "p99", "slow", "timeout", "response time"]

/-- Keywords that trigger a load burst. -/
def loadKeywords : List String := ["overload", "cpu", "spike", "scale", "capacity", "traffic"]

/-- Python `any(k in text for k in kws)`. -/
def anyKw (kws : List String) (text : String) : Bool := kws.any (fun k => pyIn k text)

/-- An insight as returned by `get_all_insights` (fields read by the
generator). -/
structure InsightRec where
  service : String
  title : String
  insight : String
  severity : String
  id : String
deriving DecidableEq

/-- A pattern as returned by `get_all_patterns` (fields read by the
generator). -/
structure PatternRec where
  ptype : String
  service : Option String
  scope : Option String
  id : String
  description : String
  confidence : Option ℚ
deriving DecidableEq

/-- A generated test strategy (`TestStrategy` dataclass). -/
structure TestStrategy where
  id : Nat
  name : String
  stype : String
  description : String
  target : String
  derived_from : String
  severity : String
  endpoints : List String
  concurrency : Nat
  samples : Nat
deriving DecidableEq

/-- The always-included health sweep (rule 1 of the generator). -/
def healthSweepStrategy (ctr : Nat) : TestStrategy :=
  { id := ctr
    name := "Core Endpoint Health Sweep"
    stype := "health_sweep"
    description := "Verify all platform API endpoints return 2xx within 2 s."
    target := "all"
    derived_from := "baseline"
    severity := "medium"
    endpoints := coreEndpointPaths
    concurrency := 1
    samples := 10 }

/-- Generator state while folding over insights and patterns: accumulated
strategies, the `seen_services` set, and the fresh-id counter. -/
structure GenState where
  strategies : List TestStrategy
  seen : List String
  ctr : Nat

/-- Processing of one insight by `generate_strategies` (latency-probe rule
then load-burst rule). -/
def stepInsight (st : GenState) (ins : InsightRec) : GenState :=
  let svc := ins.service
  let text := pyLower (ins.insight ++ " " ++ ins.title)
  let st :=
    if anyKw latencyKeywords text && !(st.seen.contains svc) then
      { strategies := st.strategies ++
          [{ id := st.ctr
             name := "Latency Probe — " ++ svc
             stype := "latency_probe"
             description := "Run 10 sequential requests to " ++ svc ++
               " endpoints and compute p50/p95/p99. Derived from insight: " ++
               sglq ++ ins.title ++ sglq ++ "."
             target := svc
             derived_from := ins.id
             severity := ins.severity
             endpoints := ["/api/agent/health", "/api/cluster/status"]
             concurrency := 1
             samples := 10 }]
        seen := st.seen ++ [svc]
        ctr := st.ctr + 1 }
    else st
  if anyKw loadKeywords text && !(st.seen.contains ("load-" ++ svc)) then
    { strategies := st.strategies ++
        [{ id := st.ctr
           name := "Load Burst — " ++ svc
           stype := "load_burst"
           description := "Fire 20 concurrent requests to simulate a traffic spike on " ++
             svc ++ ". Derived from insight: " ++ sglq ++ ins.title ++ sglq ++ "."
           target := svc
           derived_from := ins.id
           severity := ins.severity
           endpoints := ["/api/cluster/status", "/api/graph/"]
           concurrency := 20
           samples := 10 }]
      seen := st.seen ++ ["load-" ++ svc]
      ctr := st.ctr + 1 }
  else st

/-- Processing of one pattern by `generate_strategies` (cascade rule then
dependency/bottleneck rule). -/
def stepPattern (st : GenState) (pat : PatternRec) : GenState :=
  let svc := pat.service.getD (pat.scope.getD "unknown")
  let sev := if (pat.confidence.getD 0) > 7/10 then "high" else "medium"
  let descCut : String := ⟨pat.description.toList.take 80⟩
  let st :=
    if pyIn "cascade" pat.ptype && !(st.seen.contains ("cascade-" ++ svc)) then
      { strategies := st.strategies ++
          [{ id := st.ctr
             name := "Cascade Simulation — " ++ svc
             stype := "cascade_sim"
             description := "Probe " ++ svc ++
               " and its downstream dependencies sequentially to identify where cascade failures originate. Pattern: " ++
               sglq ++ descCut ++ sglq ++ "."
             target := svc
             derived_from := pat.id
             severity := sev
             endpoints := ["/api/graph/", "/api/cluster/status", "/api/agent/health"]
             concurrency := 1
             samples := 10 }]
        seen := st.seen ++ ["cascade-" ++ svc]
        ctr := st.ctr + 1 }
    else st
  if pyIn "dependency" pat.ptype || pyIn "bottleneck" pat.ptype then
    { strategies := st.strategies ++
        [{ id := st.ctr
           name := "Dependency Chain — " ++ svc
           stype := "dependency_chain"
           description := "Walk the known dependency chain for " ++ svc ++
             " and assert each hop is reachable within SLO. Pattern: " ++
             sglq ++ descCut ++ sglq ++ "."
           target := svc
           derived_from := pat.id
           severity := sev
           endpoints := ["/api/graph/", "/api/agent/health", "/api/cluster/status"]
           concurrency := 1
           samples := 10 }]
      seen := st.seen
      ctr := st.ctr + 1 }
  else st

/-- Embeds `generate_strategies`: one health sweep, then the insight rules,
then the pattern rules. -/
def generate_strategies (insights : List InsightRec) (patterns : List PatternRec) :
    List TestStrategy :=
  let st0 : GenState := { strategies := [healthSweepStrategy 0], seen := [], ctr := 1 }
  let st1 := insights.foldl stepInsight st0
  let st2 := patterns.foldl stepPattern st1
  st2.strategies

/-! ## Memory store: history, baselines, insights (`backend/memory/store.py`) -/

/-- Embeds `store.record_analysis`: append the session, keep the last 100. -/
def record_analysis (m : Memory) (sess : Session) : Memory :=
  let h := m.analysisHistory ++ [sess]
  { m with analysisHistory := if h.length > 100 then h.drop (h.length - 100) else h }

/-- Apply an update to one service's slice of the document. -/
def mapService (m : Memory) (s : String) (f : ServiceData → ServiceData) : Memory :=
  { m with services := m.services.map (fun sd => if sd.1 = s then (sd.1, f sd.2) else sd) }

/-- Embeds `store.update_baseline`: ensure the service, replace its baseline
map, stamp `measured_at`. -/
def update_baseline (m : Memory) (s : String) (metrics : List (String × ℚ))
    (nowIso : String) : Memory :=
  mapService (ensureService m s) s (fun d => { d with baselineMetrics := some ⟨metrics, nowIso⟩ })

/-- Embeds `store.add_insight` at the granularity the claims need: ensure the
service, append the (opaque) insight record, return its id. -/
def add_insight (m : Memory) (s : String) (insightId : String) : Memory × String :=
  (mapService (ensureService m s) s (fun d => { d with insights := d.insights ++ [insightId] }), insightId)

/-- True when the service has a non-empty stored baseline. -/
def baselineExists (m : Memory) (s : String) : Bool :=
  match m.services.find? (fun sd => sd.1 = s) with
  | some sd => sd.2.baselineMetrics.isSome
  | none => false

/-! ## Deterministic demo fallback (`backend/agent/agent.py`)

The Python code draws from `random.Random(seed + now.hour)`.  We model the
pseudo-random stream of a given seed abstractly: `draw seed i` is the `i`-th
integer draw and `ufn seed i` the `i`-th uniform draw of the generator seeded
with `seed`.  Every theorem quantifies over all such streams, so nothing
depends on the concrete Mersenne-Twister sequence — only on the facts that
the stream is a function of the seed and that `choice` returns a list
element. -/

/-- Anomaly entry of a demo report. -/
structure Anomaly where
  atype : String
  metric : String
  current_value : ℚ
  description : String
deriving DecidableEq

/-- One remediation action listed in a demo report. -/
structure ActionTaken where
  action_type : String
  service : String
  result : String
deriving DecidableEq

/-- Validation block of a demo report. -/
structure DemoValidation where
  recovered : Bool
  latency_p99_ms : ℤ
  pass_rate : ℚ
deriving DecidableEq

/-- The structured report `_demo_analyze_service` returns. -/
structure DemoReport where
  run_id : String
  timestamp : String
  service : String
  health_score : Nat
  status : String
  anomalies : List Anomaly
  root_cause : String
  root_cause_service : String
  affected_upstream : List String
  recommended_action : String
  actions_taken : List ActionTaken
  validation : DemoValidation
  chat_summary : String
deriving DecidableEq

/-- Format a rational with one decimal digit (Python `f"{x:.1f}"`). -/
def fmt1 (q : ℚ) : String :=
  let n := roundHalfEven (q * 10)
  let sign := if n < 0 then "-" else ""
  let a := n.natAbs
  sign ++ toString (a / 10) ++ "." ++ toString (a % 10)

/-- The fixed health ladder `_demo_analyze_service` chooses from. -/
def healthLadder : List Nat := [95, 88, 72, 65, 42, 38, 25]

/-- Model of `random.sample(pool, k)`: `k` distinct elements of `pool`,
selected by the draw `d` (rotation followed by a prefix). -/
def sampleRotate (pool : List String) (k : Nat) (d : Nat) : List String :=
  let r := d % max pool.length 1
  ((pool.drop r) ++ (pool.take r)).take k

/-- Embeds `_demo_analyze_service`.  `hour` is `datetime.now(utc).hour`; the
seed is the character-code sum of the service name plus the hour, exactly as
in the source. -/
def demo_analyze_service (draw : Nat → Nat → Nat) (ufn : Nat → Nat → ℚ)
    (service_name : String) (hour : Nat) (run_id nowIso : String) : DemoReport :=
  let seed := (service_name.toList.map Char.toNat).sum
  let key := seed + hour
  let health_score := healthLadder.getD (draw key 0 % healthLadder.length) 0
  let p99 : ℤ := pyInt (200 + ((100 : ℚ) - health_score) * ufn key 1)
  let _avg : ℤ := pyInt ((p99 : ℚ) * ufn key 2)
  let status :=
    if health_score ≥ 80 then "healthy"
    else if health_score ≥ 50 then "degraded"
    else "critical"
  let error_rate : ℚ := round1 (ufn key 3)
  let anomalies : List Anomaly :=
    (if health_score < 80 then
      [{ atype := "latency_spike", metric := "p99_latency_ms", current_value := (p99 : ℚ)
         description := "P99 latency at " ++ toString p99 ++ "ms, " ++
           fmt1 ((p99 : ℚ) / 200) ++ "x above the 200ms baseline" }]
     else []) ++
    (if health_score < 50 then
      [{ atype := "error_rate_spike", metric := "error_rate_percent", current_value := error_rate
         description := "Error rate at " ++ fmt1 error_rate ++ "%, above the 2% threshold" }]
     else [])
  let root_causes : List (String × String) :=
    [("Unindexed database query causing full table scans during peak traffic", "postgres-orders"),
     ("Redis cache eviction storm due to memory pressure", "redis-cache"),
     ("Recent deployment introduced N+1 query pattern", service_name),
     ("Upstream service flooding with retry storms after timeout", "api-gateway"),
     ("Connection pool exhaustion under concurrent load", "postgres-catalog"),
     ("External payment gateway degradation causing timeout cascading", "payment-gateway")]
  let rcIdx := if health_score < 50 then 4 else 3
  let rc := root_causes.getD (draw key rcIdx % root_causes.length) ("", "")
  let actions_taken : List ActionTaken :=
    if status = "critical" then
      [{ action_type := "scale_ecs", service := service_name, result := "Scaled from 2 to 4 replicas" },
       { action_type := "update_ssm", service := service_name, result := "Set circuit_breaker_timeout=1500ms" }]
    else if status = "degraded" then
      [{ action_type := "update_ssm", service := service_name
         result := "Increased connection_pool_max from 10 to 25" }]
    else []
  let recovered_p99 : ℤ :=
    if actions_taken.isEmpty then p99 else pyInt ((p99 : ℚ) * ufn key (rcIdx + 1))
  let i6 := if actions_taken.isEmpty then rcIdx + 1 else rcIdx + 2
  let upstreamPool : List String := ["api-gateway", "order-service", "checkout-service", "auth-service"]
  let nSample := 1 + draw key i6 % 3
  let affected_upstream := sampleRotate upstreamPool nSample (draw key (i6 + 1))
  let pass_rate : ℚ :=
    if status ≠ "critical" then ([96/100, 98/100, 1] : List ℚ).getD (draw key (i6 + 2) % 3) 0
    else 92/100
  let chat_summary :=
    if status = "healthy" then
      service_name ++ " is operating normally. P99 latency is " ++ toString p99 ++
        "ms within the 500ms SLO. No anomalies detected. Historical patterns show stable performance over the last 24 hours."
    else if status = "degraded" then
      service_name ++ " is experiencing elevated latency (p99: " ++ toString p99 ++
        "ms, baseline: 200ms). Root cause traced to " ++ rc.2 ++ " — " ++ pyLower rc.1 ++
        ". Applied targeted fix and latency is recovering to " ++ toString recovered_p99 ++ "ms."
    else
      service_name ++ " is in critical state with p99 at " ++ toString p99 ++
        "ms and cascading failures affecting upstream services. Root cause: " ++ pyLower rc.1 ++
        " in " ++ rc.2 ++ ". Executed emergency scaling and circuit breaker activation. Recovery validated — p99 dropped to " ++
        toString recovered_p99 ++ "ms."
  { run_id := run_id
    timestamp := nowIso
    service := service_name
    health_score := health_score
    status := status
    anomalies := anomalies
    root_cause := rc.1
    root_cause_service := rc.2
    affected_upstream := affected_upstream
    recommended_action :=
      match actions_taken with
      | a :: _ => a.result
      | [] => "Continue monitoring — no action needed"
    actions_taken := actions_taken
    validation :=
      { recovered := status ≠ "healthy"
        latency_p99_ms := if actions_taken.isEmpty then p99 else recovered_p99
        pass_rate := pass_rate }
    chat_summary := chat_summary }

/-- Oracle-parameterized model of `_generate_demo_insights_for_service`: its
module-level random draws (metric values, chosen library entries, fresh ids)
are passed in; its store effects — overwrite the baseline, append 2–4
insights, add 1–2 patterns — are performed exactly. -/
def generate_demo_insights_for_service (m : Memory) (s : String)
    (metrics : List (String × ℚ)) (insightIds : List String)
    (pats : List (PatternIn × String)) (nowIso : String) : Memory :=
  let m1 := update_baseline m s metrics nowIso
  let m2 := insightIds.foldl (fun acc iid => (add_insight acc s iid).1) m1
  pats.foldl (fun acc pr => (add_pattern acc s pr.1 pr.2 nowIso).1) m2

/-- Embeds the fallback path of `agent.analyze_service` (every LLM invocation
failing): produce the demo report, record an analysis session, write the
baseline (the report's health score is always set), then run the demo insight
generator. -/
def analyze_service_fallback (draw : Nat → Nat → Nat) (ufn : Nat → Nat → ℚ)
    (service_name : String) (hour : Nat) (run_id freshSess nowIso : String)
    (m : Memory) (giMetrics : List (String × ℚ)) (giInsightIds : List String)
    (giPats : List (PatternIn × String)) : DemoReport × Memory :=
  let report := demo_analyze_service draw ufn service_name hour run_id nowIso
  let m1 := record_analysis m
    { session_id := freshSess
      trigger := "manual"
      services_analyzed := [service_name]
      findings_summary := report.chat_summary
      actions_taken := report.actions_taken.map (fun a => a.action_type) }
  let m2 := update_baseline m1 service_name
    [("health_score", (report.health_score : ℚ)),
     ("avg_latency_ms", (report.validation.latency_p99_ms : ℚ))] nowIso
  let m3 := generate_demo_insights_for_service m2 service_name giMetrics giInsightIds giPats nowIso
  (report, m3)

/-! ## Cluster coordinator (`backend/cluster/coordinator.py`)

`uuid`-generated ids are opaque fresh tokens in the source; they are modelled
by a per-state counter (`next_uid`) handing out opaque `Nat` tokens.
`time.monotonic()` readings and the per-tick random noise are passed in as
explicit arguments, so every theorem quantifies over them. -/

/-- Tuning constant `MAX_SERVICES_PER_AGENT`. -/
def MAX_SERVICES_PER_AGENT : Nat := 5

/-- Tuning constant `QUEUE_HIGH_WATERMARK`. -/
def QUEUE_HIGH_WATERMARK : Nat := 3

/-- Tuning constant `QUEUE_LOW_WATERMARK`. -/
def QUEUE_LOW_WATERMARK : Nat := 1

/-- Tuning constant `SCALE_COOLDOWN_SECONDS`. -/
def SCALE_COOLDOWN_SECONDS : ℚ := 15

/-- Tuning constant `MAX_AGENT_REPLICAS`. -/
def MAX_AGENT_REPLICAS : Nat := 6

/-- Tuning constant `MIN_AGENT_REPLICAS`. -/
def MIN_AGENT_REPLICAS : Nat := 1

/-- One agent worker (`AgentReplica` dataclass). -/
structure AgentReplica where
  replica_id : Nat
  name : String
  status : String
  assigned_services : List String
  analyses_completed : Nat
  current_task : Option String
  spawned_at : String
  last_heartbeat : String
  cpu_load : ℚ
  memory_mb : ℚ
deriving DecidableEq

/-- One queued task (`WorkItem` dataclass). -/
structure WorkItem where
  id : Nat
  service_name : String
  task_type : String
  priority : Int
  enqueued_at : String
  assigned_to : Option Nat
  status : String
deriving DecidableEq

/-- One scale-event log entry.  `replica_id` is `none` for the extra events
the manual-scale route appends (they carry no `replica_id` key). -/
structure ScaleEvent where
  event : String
  replica_id : Option Nat
  name : String
  timestamp : String
  reason : String
  total_replicas : Nat
deriving DecidableEq

/-- The coordinator singleton's state.  The replica dict is an
insertion-ordered list keyed by `replica_id`. -/
structure CoordState where
  replicas : List AgentReplica
  work_queue : List WorkItem
  completed_work : List WorkItem
  scale_events : List ScaleEvent
  last_scale_time : ℚ
  all_services : List String
  pending_validation : Option (String × Nat)
  next_uid : Nat
deriving DecidableEq

/-- One step of the round-robin loop `running[i % k].append(svc)`. -/
def rrStep (k : Nat) (buckets : List (List String)) (p : Nat × String) : List (List String) :=
  buckets.set (p.1 % k) (buckets.getD (p.1 % k) [] ++ [p.2])

/-- The assignment loop of `_rebalance_partitions`:
`for i, svc in enumerate(all_services): running[i % k].append(svc)`,
starting from `k` freshly cleared assignment lists. -/
def rrDistribute (k : Nat) (svcs : List String) : List (List String) :=
  svcs.enum.foldl (rrStep k) (List.replicate k [])

/-- Hand bucket `i`, `i+1`, … to the running replicas (in dict order),
leaving non-running replicas untouched. -/
def assignBuckets : List AgentReplica → List (List String) → Nat → List AgentReplica
  | [], _, _ => []
  | r :: rest, buckets, i =>
    if r.status = "running" then
      { r with assigned_services := buckets.getD i [] } :: assignBuckets rest buckets (i + 1)
    else r :: assignBuckets rest buckets i

/-- The running replicas, in dict order. -/
def runningOf (st : CoordState) : List AgentReplica :=
  st.replicas.filter (fun r => r.status = "running")

/-- Embeds `_rebalance_partitions`: no-op when no replica is running or no
service is known; otherwise round-robin distribute `all_services` over the
running replicas. -/
def _rebalance_partitions (st : CoordState) : CoordState :=
  let running := runningOf st
  if running.isEmpty || st.all_services.isEmpty then st
  else { st with replicas := assignBuckets st.replicas (rrDistribute running.length st.all_services) 0 }

/-- A freshly spawned replica record. -/
def newReplica (rid : Nat) (name nowIso : String) : AgentReplica :=
  { replica_id := rid, name := name, status := "running", assigned_services := []
    analyses_completed := 0, current_task := none, spawned_at := nowIso
    last_heartbeat := nowIso, cpu_load := 0, memory_mb := 0 }

/-- Embeds `_spawn_replica`: insert a fresh replica, log a `spawn` event, set
`last_scale_time`, set the pending-validation slot when this is not the
initial replica, rebalance. -/
def _spawn_replica (st : CoordState) (nameArg : Option String) (now : ℚ) (nowIso : String) :
    CoordState × AgentReplica :=
  let rid := st.next_uid
  let name := nameArg.getD ("forge-" ++ toString rid)
  let rep := newReplica rid name nowIso
  let replicas := st.replicas ++ [rep]
  let ev : ScaleEvent :=
    { event := "spawn", replica_id := some rid, name := name, timestamp := nowIso
      reason := if replicas.length > 1 then "auto-scale" else "initial"
      total_replicas := replicas.length }
  let st1 : CoordState :=
    { st with
      replicas := replicas
      scale_events := st.scale_events ++ [ev]
      last_scale_time := now
      pending_validation := if replicas.length > 1 then some ("scale_up", rid) else st.pending_validation
      next_uid := st.next_uid + 1 }
  (_rebalance_partitions st1, rep)

/-- Embeds `_kill_replica`: no-op when the id is unknown or only
`MIN_AGENT_REPLICAS` replicas remain; otherwise reassign the victim's
in-flight work to pending, log a `kill` event, delete the replica, set
`last_scale_time` and the pending-validation slot, rebalance. -/
def _kill_replica (st : CoordState) (rid : Nat) (now : ℚ) (nowIso : String) : CoordState :=
  match st.replicas.find? (fun r => r.replica_id = rid) with
  | none => st
  | some rep =>
    if st.replicas.length ≤ MIN_AGENT_REPLICAS then st
    else
      let queue := st.work_queue.map (fun item =>
        if item.assigned_to = some rid then { item with assigned_to := none, status := "pending" } else item)
      let ev : ScaleEvent :=
        { event := "kill", replica_id := some rid, name := rep.name, timestamp := nowIso
          reason := "scale-down", total_replicas := st.replicas.length - 1 }
      let st1 : CoordState :=
        { st with
          work_queue := queue
          scale_events := st.scale_events ++ [ev]
          replicas := st.replicas.filter (fun r => r.replica_id ≠ rid)
          last_scale_time := now
          pending_validation := some ("scale_down", rid) }
      _rebalance_partitions st1

/-- Embeds `set_services`. -/
def set_services (st : CoordState) (services : List String) : CoordState :=
  _rebalance_partitions { st with all_services := services }

/-- Embeds `enqueue`: append a fresh pending item. -/
def coordEnqueue (st : CoordState) (service_name task_type : String) (priority : Int)
    (nowIso : String) : CoordState × WorkItem :=
  let item : WorkItem :=
    { id := st.next_uid, service_name := service_name, task_type := task_type
      priority := priority, enqueued_at := nowIso, assigned_to := none, status := "pending" }
  ({ st with work_queue := st.work_queue ++ [item], next_uid := st.next_uid + 1 }, item)

/-- Mark the first pending queue item as processing and assign it (queue part
of `dequeue`). -/
def markFirstPending : List WorkItem → Nat → List WorkItem × Option WorkItem
  | [], _ => ([], none)
  | i :: rest, rid =>
    if i.status = "pending" then
      let marked := { i with status := "processing", assigned_to := some rid }
      (marked :: rest, some marked)
    else
      let r := markFirstPending rest rid
      (i :: r.1, r.2)

/-- Set a replica's `current_task`. -/
def setTask (replicas : List AgentReplica) (rid : Nat) (task : Option String) : List AgentReplica :=
  replicas.map (fun r => if r.replica_id = rid then { r with current_task := task } else r)

/-- Embeds `dequeue`: pull the next pending item, assign it, and record the
task on the replica when it still exists. -/
def coordDequeue (st : CoordState) (replica_id : Nat) : CoordState × Option WorkItem :=
  let r := markFirstPending st.work_queue replica_id
  match r.2 with
  | none => (st, none)
  | some item =>
    let replicas :=
      if (st.replicas.find? (fun x => x.replica_id = replica_id)).isSome then
        setTask st.replicas replica_id (some (item.task_type ++ ":" ++ item.service_name))
      else st.replicas
    ({ st with work_queue := r.1, replicas := replicas }, some item)

/-- Remove the first queue item with the given id, returning it (scan part of
`complete_work`). -/
def extractFirst : List WorkItem → Nat → Option (List WorkItem × WorkItem)
  | [], _ => none
  | i :: rest, wid =>
    if i.id = wid then some (rest, i)
    else
      match extractFirst rest wid with
      | none => none
      | some r => some (i :: r.1, r.2)

/-- Embeds `complete_work`: silently does nothing when no queue item has the
given id; otherwise move it to the completed ring (cap 50) and credit the
assigned replica. -/
def complete_work (st : CoordState) (work_id : Nat) (success : Bool) : CoordState :=
  match extractFirst st.work_queue work_id with
  | none => st
  | some r =>
    let item := { r.2 with status := if success then "completed" else "failed" }
    let completed := st.completed_work ++ [item]
    let completed := if completed.length > 50 then completed.drop (completed.length - 50) else completed
    let replicas :=
      match item.assigned_to with
      | some rid => st.replicas.map (fun x =>
          if x.replica_id = rid then
            { x with analyses_completed := x.analyses_completed + 1, current_task := none }
          else x)
      | none => st.replicas
    { st with work_queue := r.1, completed_work := completed, replicas := replicas }

/-- Simulated cpu/memory update of the monitor phase, walking the replica
list and consuming one noise pair per running replica. -/
def monitorUpdate : List AgentReplica → (Nat → ℚ × ℚ) → String → Nat → List AgentReplica
  | [], _, _, _ => []
  | r :: rest, rand, nowIso, i =>
    if r.status = "running" then
      let load_factor : ℚ := (r.assigned_services.length : ℚ) / (max MAX_SERVICES_PER_AGENT 1 : Nat)
      let task_factor : ℚ := if r.current_task.isSome then 3/2 else 3/10
      { r with
        cpu_load := min 99 (max 5 (load_factor * 40 + task_factor * 30 + (rand i).1))
        memory_mb := min 2048 (max 64 (load_factor * 300 + task_factor * 200 + (rand i).2))
        last_heartbeat := nowIso } :: monitorUpdate rest rand nowIso (i + 1)
    else r :: monitorUpdate rest rand nowIso i

/-- Number of pending work items (`queue_depth`). -/
def pendingDepth (st : CoordState) : Nat :=
  (st.work_queue.filter (fun i => i.status = "pending")).length

/-- The rounded `avg_cpu` metric. -/
def avgCpu (running : List AgentReplica) : ℚ :=
  round1 ((running.map (fun r => r.cpu_load)).sum / (max running.length 1 : Nat))

/-- The cooldown gate `now - last_scale_time > SCALE_COOLDOWN_SECONDS`
(strict: equality at the boundary does not pass). -/
def cooldownOk (st : CoordState) (now : ℚ) : Bool :=
  decide (now - st.last_scale_time > SCALE_COOLDOWN_SECONDS)

/-- The analyze-phase scale-up decision (three `or`-ed triggers, each gated
by the replica cap and the cooldown). -/
def shouldScaleUp (st : CoordState) (now : ℚ) : Bool :=
  let qd := pendingDepth st
  let rc := (runningOf st).length
  let spa : ℚ := (st.all_services.length : ℚ) / (max rc 1 : Nat)
  let cd := cooldownOk st now
  (decide (qd > QUEUE_HIGH_WATERMARK) && decide (rc < MAX_AGENT_REPLICAS) && cd) ||
    (decide (spa > (MAX_SERVICES_PER_AGENT : ℚ)) && decide (rc < MAX_AGENT_REPLICAS) && cd) ||
    (decide (avgCpu (runningOf st) > 80) && decide (rc < MAX_AGENT_REPLICAS) && cd)

/-- The analyze-phase scale-down decision (an `elif`: only reachable when no
scale-up trigger fired). -/
def shouldScaleDown (st : CoordState) (now : ℚ) : Bool :=
  !(shouldScaleUp st now) &&
    (decide (pendingDepth st < QUEUE_LOW_WATERMARK) &&
      decide ((runningOf st).length > MIN_AGENT_REPLICAS) && cooldownOk st now)

/-- Python `min(running, key=...)`: first element with the fewest assigned
services. -/
def minByAssigned : AgentReplica → List AgentReplica → AgentReplica
  | best, [] => best
  | best, r :: rest =>
    if r.assigned_services.length < best.assigned_services.length then minByAssigned r rest
    else minByAssigned best rest

/-- The plan/execute phase of a tick: spawn, or kill the least-busy non-primary
replica, or do nothing. -/
def tickExecute (st : CoordState) (now : ℚ) (nowIso : String) : CoordState × String :=
  if shouldScaleUp st now then
    let r := _spawn_replica st none now nowIso
    (r.1, "spawned " ++ r.2.name)
  else if shouldScaleDown st now then
    match runningOf st with
    | [] => (st, "none")
    | b :: rest =>
      let least := minByAssigned b rest
      if least.name ≠ "forge-primary" then
        (_kill_replica st least.replica_id now nowIso, "killed " ++ least.name)
      else (st, "none")
  else (st, "none")

/-- The work-dispatch phase: one `dequeue` per captured running replica with
no current task. -/
def tickDispatch (st : CoordState) (caps : List (Nat × Option String)) : CoordState :=
  caps.foldl (fun acc c => if c.2 = none then (coordDequeue acc c.1).1 else acc) st

/-- Embeds `mape_k_tick`: monitor (simulated cpu/memory), analyze, plan +
execute at most one scale action, then dispatch work.  Returns the action
string ("none" when no scale action was taken). -/
def mape_k_tick (st : CoordState) (now : ℚ) (nowIso : String) (rand : Nat → ℚ × ℚ) :
    CoordState × String :=
  let st1 := { st with replicas := monitorUpdate st.replicas rand nowIso 0 }
  let r := tickExecute st1 now nowIso
  let caps := (runningOf st1).map (fun x => (x.replica_id, x.current_task))
  (tickDispatch r.1 caps, r.2)

/-! ## Cluster HTTP routes (`backend/api/routes/cluster_routes.py`) -/

/-- Errors a route can raise: an explicit `HTTPException(400, …)` or an
uncaught Python exception (the `KeyError` below). -/
inductive RouteErr where
  | badRequest (msg : String)
  | keyError
deriving DecidableEq

/-- Python `coord.replicas[-1]`: the replica dict is keyed by uuid *strings*,
and subscripting a dict with the *int* `-1` compares `-1` against each key;
`int == str` is always `False` in Python, so the lookup matches no key and
raises `KeyError`. -/
def replicaDictIntKey (replicas : List AgentReplica) (k : Int) : Option AgentReplica :=
  replicas.find? (fun _ => decide ((none : Option Int) = some k))

/-- Embeds `POST /api/cluster/scale` (`manual_scale`). -/
def manual_scale (st : CoordState) (direction reason : String) (now : ℚ) (nowIso : String) :
    Except RouteErr (CoordState × String) :=
  if direction = "up" then
    if st.replicas.length ≥ 6 then .error (.badRequest "Maximum replica count reached (6)")
    else
      let st0 := { st with last_scale_time := 0 }
      let r := _spawn_replica st0 none now nowIso
      let ev : ScaleEvent :=
        { event := "spawn", replica_id := none, name := r.2.name, timestamp := nowIso
          reason := "manual: " ++ reason, total_replicas := r.1.replicas.length }
      let st2 := _rebalance_partitions { r.1 with scale_events := r.1.scale_events ++ [ev] }
      .ok ({ st2 with pending_validation := none }, "scale_up")
  else if direction = "down" then
    if st.replicas.length ≤ 1 then .error (.badRequest "Cannot scale below 1 replica")
    else
      match replicaDictIntKey st.replicas (-1) with
      | none => .error .keyError
      | some victim =>
        let st1 := _kill_replica st victim.replica_id now nowIso
        let ev : ScaleEvent :=
          { event := "kill", replica_id := none, name := victim.name, timestamp := nowIso
            reason := "manual: " ++ reason, total_replicas := st1.replicas.length }
        .ok (_rebalance_partitions { st1 with scale_events := st1.scale_events ++ [ev] }, "scale_down")
  else .error (.badRequest "direction must be up or down")

/-- Response body of `POST /api/cluster/complete/{work_id}`. -/
structure CompleteResponse where
  status : String
  work_id : Nat
deriving DecidableEq

/-- Embeds `POST /api/cluster/complete/{work_id}`: always calls
`complete_work(id, success=True)` and always answers `{"status": "completed"}`. -/
def route_complete_work (st : CoordState) (work_id : Nat) : CoordState × CompleteResponse :=
  (complete_work st work_id true, { status := "completed", work_id := work_id })

/-- Embeds `POST /api/cluster/tick`: one tick, then `run_pending_validation`
(which clears the pending slot; the validation probe itself is external). -/
def route_tick (st : CoordState) (now : ℚ) (nowIso : String) (rand : Nat → ℚ × ℚ) :
    CoordState × String :=
  let r := mape_k_tick st now nowIso rand
  ({ r.1 with pending_validation := none }, r.2)

/-- The tick loop of `simulate-load`: up to `fuel` ticks, zeroing
`last_scale_time` before each (the demo cooldown bypass), stopping at the
first "none" action. -/
def simLoop : CoordState → Nat → Nat → (Nat → ℚ) → (Nat → String) → (Nat → Nat → ℚ × ℚ) →
    CoordState
  | st, 0, _, _, _, _ => st
  | st, fuel + 1, j, times, isos, rands =>
    let st0 := { st with last_scale_time := 0 }
    let r := mape_k_tick st0 (times j) (isos j) (rands j)
    if r.2 = "none" then r.1
    else simLoop r.1 fuel (j + 1) times isos rands

/-- Embeds `POST /api/cluster/simulate-load`: enqueue `count` items
round-robining over the known services (or a default list), run up to
`min(count, 4)` cooldown-bypassing ticks, then `run_pending_validation`. -/
def simulate_load (st : CoordState) (count : Nat) (isoEnq : String) (times : Nat → ℚ)
    (isos : Nat → String) (rands : Nat → Nat → ℚ × ℚ) : CoordState :=
  let services :=
    if st.all_services.isEmpty then
      ["payment-service", "order-service", "auth-service", "api-gateway", "inventory-svc"]
    else st.all_services
  let st1 := (List.range count).foldl
    (fun acc i => (coordEnqueue acc (services.getD (i % services.length) "") "analyze" (i : Int) isoEnq).1) st
  let st2 := simLoop st1 (min count 4) 0 times isos rands
  { st2 with pending_validation := none }

/-! ## Coordinator operation sequences -/

/-- One coordinator operation, as reachable through the API. -/
inductive CoordOp where
  | tick (now : ℚ) (nowIso : String) (rand : Nat → ℚ × ℚ)
  | enq (service task : String) (priority : Int) (nowIso : String)
  | scale (direction reason : String) (now : ℚ) (nowIso : String)
  | simLoad (count : Nat) (isoEnq : String) (times : Nat → ℚ) (isos : Nat → String)
      (rands : Nat → Nat → ℚ × ℚ)
  | complete (work_id : Nat) (success : Bool)
  | setSvcs (services : List String)

/-- Apply one operation.  A route that raises (`HTTPException` / `KeyError`)
leaves the coordinator state unchanged. -/
def runOp (st : CoordState) (op : CoordOp) : CoordState :=
  match op with
  | .tick now iso rand => (route_tick st now iso rand).1
  | .enq s t p iso => (coordEnqueue st s t p iso).1
  | .scale d r now iso =>
    match manual_scale st d r now iso with
    | .ok res => res.1
    | .error _ => st
  | .simLoad c iso times isos rands => simulate_load st c iso times isos rands
  | .complete wid s => complete_work st wid s
  | .setSvcs svcs => set_services st svcs

/-- Apply a sequence of operations. -/
def runOps (st : CoordState) (ops : List CoordOp) : CoordState := ops.foldl runOp st

/-- The state the coordinator's `__init__` builds: empty tables, then the
initial `forge-primary` spawn. -/
def initCoordState (now : ℚ) (nowIso : String) : CoordState :=
  (_spawn_replica
    { replicas := [], work_queue := [], completed_work := [], scale_events := []
      last_scale_time := 0, all_services := [], pending_validation := none, next_uid := 0 }
    (some "forge-primary") now nowIso).1

/-! ## Proof-side definitions -/

/-- Confidence after `n` merges of an identical pattern whose first insert
stored confidence `c`: each merge applies `min(0.99, prev + 0.02)`. -/
def confIter (c : ℚ) : Nat → ℚ
  | 0 => c
  | n + 1 => min (99/100) (confIter c n + 2/100)

/-- Repeated `add_pattern` calls with the same payload; call `n` uses fresh id
`fids n` and timestamp `isos n`. -/
def addPatternIter (m : Memory) (s : String) (p : PatternIn) (fids isos : Nat → String) :
    Nat → Memory
  | 0 => m
  | n + 1 => (add_pattern (addPatternIter m s p fids isos n) s p (fids n) (isos n)).1

/-- The single stored entry after `n ≥ 1` identical `add_pattern` calls. -/
def mergedEntry (p : PatternIn) (c : ℚ) (fid0 firstIso lastIso : String) (n : Nat) : Pattern :=
  { id := fid0, ptype := p.ptype, description := p.description
    confidence := some (confIter c (n - 1)), occurrences := some n
    recommendation := p.recommendation, firstDetected := firstIso, lastConfirmed := lastIso }

/-- One service's pattern list after `n` identical `add_pattern` calls. -/
def patternsAfter (ps : List Pattern) (p : PatternIn) (fids isos : Nat → String) : Nat → List Pattern
  | 0 => ps
  | n + 1 => (addPatternList (patternsAfter ps p fids isos n) p (fids n) (isos n)).1

/-- The service a pattern is attributed to by the strategy generator. -/
def svcOf (p : PatternRec) : String := p.service.getD (p.scope.getD "unknown")

/-- View of `assignBuckets` on an all-running replica list. -/
def assignAll : List AgentReplica → List (List String) → Nat → List AgentReplica
  | [], _, _ => []
  | r :: rest, b, i => { r with assigned_services := b.getD i [] } :: assignAll rest b (i + 1)

/-- The services that round-robin distribution places in slot `j` of `k`. -/
def rrSlot (j k : Nat) (svcs : List String) : List String :=
  (svcs.enum.filter (fun p => p.1 % k = j)).map Prod.snd

/-- A concrete coordinator state with two running replicas and three known
services, used to exercise the rebalance theorem. -/
def exRebState : CoordState :=
  { replicas := [newReplica 0 "forge-0" "t0", newReplica 1 "forge-1" "t0"]
    work_queue := []
    completed_work := []
    scale_events := []
    last_scale_time := 0
    all_services := ["svc-a", "svc-b", "svc-c"]
    pending_validation := none
    next_uid := 2 }

/-- The id/status signature of a replica; monitor updates, task assignment,
work credit, and rebalancing all leave it untouched. -/
def repSig (r : AgentReplica) : Nat × String := (r.replica_id, r.status)

/-- Structural facts about the replica table that every coordinator operation
preserves: every replica is running (the code never stores any other status),
ids are pairwise distinct, and every id is below the fresh-id counter. -/
def replicasInv (l : List AgentReplica) (n : Nat) : Prop :=
  (∀ r ∈ l, r.status = "running") ∧
  (l.map (fun r => r.replica_id)).Nodup ∧
  (∀ r ∈ l, r.replica_id < n)

/-- The coordinator invariant: structural replica facts plus the replica-count
bounds `MIN_AGENT_REPLICAS ≤ count ≤ MAX_AGENT_REPLICAS`. -/
def coordInv (st : CoordState) : Prop :=
  replicasInv st.replicas st.next_uid ∧
  MIN_AGENT_REPLICAS ≤ st.replicas.length ∧
  st.replicas.length ≤ MAX_AGENT_REPLICAS

/-- The state `_spawn_replica` builds just before its final rebalance. -/
def spawnPre (st : CoordState) (nameArg : Option String) (now : ℚ) (nowIso : String) :
    CoordState :=
  let rid := st.next_uid
  let name := nameArg.getD ("forge-" ++ toString rid)
  let rep := newReplica rid name nowIso
  let replicas := st.replicas ++ [rep]
  let ev : ScaleEvent :=
    { event := "spawn", replica_id := some rid, name := name, timestamp := nowIso
      reason := if replicas.length > 1 then "auto-scale" else "initial"
      total_replicas := replicas.length }
  { st with
    replicas := replicas
    scale_events := st.scale_events ++ [ev]
    last_scale_time := now
    pending_validation := if replicas.length > 1 then some ("scale_up", rid) else st.pending_validation
    next_uid := st.next_uid + 1 }

/-- The state `_kill_replica` builds just before its final rebalance, when the
victim id resolves to `rep` and more than the minimum number of replicas
remain. -/
def killPre (st : CoordState) (rep : AgentReplica) (rid : Nat) (now : ℚ) (nowIso : String) :
    CoordState :=
  { st with
    work_queue := st.work_queue.map (fun item =>
      if item.assigned_to = some rid then { item with assigned_to := none, status := "pending" } else item)
    scale_events := st.scale_events ++
      [{ event := "kill", replica_id := some rid, name := rep.name, timestamp := nowIso
         reason := "scale-down", total_replicas := st.replicas.length - 1 }]
    replicas := st.replicas.filter (fun r => r.replica_id ≠ rid)
    last_scale_time := now
    pending_validation := some ("scale_down", rid) }

/-- The state after the monitor phase of a tick. -/
def monSt (st : CoordState) (rand : Nat → ℚ × ℚ) (nowIso : String) : CoordState :=
  { st with replicas := monitorUpdate st.replicas rand nowIso 0 }

/-- The service list `simulate-load` round-robins over. -/
def simSvcs (st : CoordState) : List String :=
  if st.all_services.isEmpty then
    ["payment-service", "order-service", "auth-service", "api-gateway", "inventory-svc"]
  else st.all_services

/-- The state the manual scale-up route builds on success. -/
def manualUpState (st : CoordState) (reason : String) (now : ℚ) (nowIso : String) : CoordState :=
  let st0 := { st with last_scale_time := 0 }
  let r := _spawn_replica st0 none now nowIso
  let ev : ScaleEvent :=
    { event := "spawn", replica_id := none, name := r.2.name, timestamp := nowIso
      reason := "manual: " ++ reason, total_replicas := r.1.replicas.length }
  let st2 := _rebalance_partitions { r.1 with scale_events := r.1.scale_events ++ [ev] }
  { st2 with pending_validation := none }

/-! ## Supporting lemmas -/

/-- Insertion preserves length. -/
theorem insortAsc_length (x : ℚ) (l : List ℚ) : (insortAsc x l).length = l.length + 1 := by
  induction l with
  | nil => rfl
  | cons y ys ih =>
    unfold insortAsc
    split
    · rfl
    · simp [ih]

/-- Sorting preserves length. -/
theorem sortAsc_length (l : List ℚ) : (sortAsc l).length = l.length := by
  induction l with
  | nil => rfl
  | cons y ys ih => simp [sortAsc, List.foldr_cons, insortAsc_length]; simpa [sortAsc] using ih

/-- Truncation toward zero agrees with the floor on non-negative values. -/
theorem pyInt_eq_floor (q : ℚ) (h : 0 ≤ q) : pyInt q = ⌊q⌋ := by
  simp [pyInt, h]

/-! ## Claim C10 -/

/-- C10: every test runner computes percentiles of the sorted latency sample
at index `max(0, ⌊n·p/100⌋ − 1)`; for a 10-sample probe, p99 is the element
at zero-based index 8 of the sorted list.  Both the latency-probe percentile
(whose argument is pre-sorted) and the load-burst percentile (which sorts its
argument) are covered. -/
theorem C10_percentile_index :
    (∀ (n : Nat) (p : ℚ), 0 ≤ p →
      percentileIdx n p = (max 0 (⌊(n : ℚ) * p / 100⌋ - 1)).toNat) ∧
    (∀ lst : List ℚ, lst.length = 10 →
      percentileProbe lst 99 = round1 (lst.getD 8 0) ∧
      percentileBurst lst 99 = round1 ((sortAsc lst).getD 8 0)) := by
  constructor
  · intro n p hp
    have h0 : (0 : ℚ) ≤ (n : ℚ) * p / 100 := by positivity
    simp [percentileIdx, pyInt_eq_floor _ h0]
  · intro lst hlen
    have hfl : (⌊((10 : Nat) : ℚ) * 99 / 100⌋ : ℤ) = 9 := by norm_num
    have hidx : percentileIdx 10 99 = 8 := by
      rw [percentileIdx, pyInt_eq_floor _ (by norm_num), hfl]
      rfl
    constructor
    · simp [percentileProbe, hlen, hidx]
    · simp [percentileBurst, sortAsc_length, hlen, hidx]

/-- Concrete witness for C10 at `n = 4, p = 50` and a concrete 10-sample
list. -/
theorem C10_percentile_index_witness :
    percentileIdx 4 50 = (max 0 (⌊(4 : ℚ) * 50 / 100⌋ - 1)).toNat ∧
    percentileProbe [1, 2, 3, 4, 5, 6, 7, 8, 9, 10] 99 =
      round1 (([1, 2, 3, 4, 5, 6, 7, 8, 9, 10] : List ℚ).getD 8 0) :=
  ⟨C10_percentile_index.1 4 50 (by norm_num),
   (C10_percentile_index.2 [1, 2, 3, 4, 5, 6, 7, 8, 9, 10] (by rfl)).1⟩

/-! ## Claim C6 -/

/-- C6: `validate_scale_stability` returns the pre-scale and post-scale
measurements together with their deltas, and `network_stable` is true exactly
when the post pass-rate is at least 95% of the pre pass-rate and the post p99
is at most 120% of the pre p99.  The first conjunct settles the production
branch for arbitrary provider measurements; the second settles the demo
branch for every scale direction. -/
theorem C6_scale_stability_rule :
    (∀ (sn dir : String) (b a : Nat) (pre post : PhaseResult),
      (validate_scale_stability_prod sn dir b a pre post).phase_1_pre_scale = pre ∧
      (validate_scale_stability_prod sn dir b a pre post).phase_2_post_scale = post ∧
      (validate_scale_stability_prod sn dir b a pre post).delta.latency_ms =
        round1 (post.p99_latency_ms - pre.p99_latency_ms) ∧
      (validate_scale_stability_prod sn dir b a pre post).delta.pass_rate_pct =
        round1 (post.pass_rate - pre.pass_rate) ∧
      ((validate_scale_stability_prod sn dir b a pre post).network_stable = true ↔
        stableRule pre post)) ∧
    (∀ (sn dir : String) (b a : Nat),
      ((validate_scale_stability_demo sn dir b a).network_stable = true ↔
        stableRule (validate_scale_stability_demo sn dir b a).phase_1_pre_scale
          (validate_scale_stability_demo sn dir b a).phase_2_post_scale)) := by
  constructor
  · intro sn dir b a pre post
    refine ⟨rfl, rfl, rfl, rfl, ?_⟩
    simp only [validate_scale_stability_prod, stableRule, Bool.and_eq_true, decide_eq_true_eq]
    constructor
    · rintro ⟨h1, h2⟩
      exact ⟨by linarith, by linarith⟩
    · rintro ⟨h1, h2⟩
      exact ⟨by linarith, by linarith⟩
  · intro sn dir b a
    by_cases hd : dir = "up"
    · subst hd
      simp only [validate_scale_stability_demo]
      norm_num [stableRule, round1, roundHalfEven]
    · simp only [validate_scale_stability_demo, if_neg hd]
      norm_num [stableRule, round1, roundHalfEven, abs_of_pos, abs_of_nonneg]


/-! ## Claim C3 -/

/-- C3 counterexample: with an existing pattern of the same type described
"alpha beta gamma", inserting "alpha beta delta" *merges* in the code (word
overlap `2 / max(3,3) = 2/3 > 0.6`) although the claim's Jaccard rule says
the descriptions are not similar (`2 / |union| = 2/4 = 0.5 ≤ 0.6`, and the
first 40 characters differ), so the claim predicts a second appended entry:
instead one entry remains and the existing id is returned. -/
theorem C3_counterexample :
    similarSpecJaccard "alpha beta gamma" "alpha beta delta" = false ∧
    _similar "alpha beta gamma" "alpha beta delta" = true ∧
    ((add_pattern
        { services :=
            [("svc",
              { baselineMetrics := none
                patterns := [insertPattern ⟨none, "latency_spike", "alpha beta gamma", some (1/2), none, none⟩ "pat-1" "t0"]
                insights := [] })]
          globalPatterns := [], analysisHistory := [] }
        "svc" ⟨none, "latency_spike", "alpha beta delta", some (1/2), none, none⟩
        "pat-2" "t1").1.services.map (fun sd => sd.2.patterns.length)) = [1] ∧
    (add_pattern
        { services :=
            [("svc",
              { baselineMetrics := none
                patterns := [insertPattern ⟨none, "latency_spike", "alpha beta gamma", some (1/2), none, none⟩ "pat-1" "t0"]
                insights := [] })]
          globalPatterns := [], analysisHistory := [] }
        "svc" ⟨none, "latency_spike", "alpha beta delta", some (1/2), none, none⟩
        "pat-2" "t1").2 = "pat-1" := by
  have hws1 : wordSet "alpha beta gamma" = ["alpha", "beta", "gamma"] := by decide
  have hws2 : wordSet "alpha beta delta" = ["alpha", "beta", "delta"] := by decide
  have h40 : ¬((("alpha beta gamma" : String).toList.take 40).map Char.toLower =
      (("alpha beta delta" : String).toList.take 40).map Char.toLower) := by decide
  have hov : overlapCount ["alpha", "beta", "gamma"] ["alpha", "beta", "delta"] = 2 := by decide
  have hun : ((["alpha", "beta", "gamma"] ++ ["alpha", "beta", "delta"]).dedup :
      List String).length = 4 := by decide
  have hjac : similarSpecJaccard "alpha beta gamma" "alpha beta delta" = false := by
    unfold similarSpecJaccard
    rw [if_neg h40]
    simp only [hws1, hws2, hov, hun, List.isEmpty_cons, Bool.or_self, if_neg]
    norm_num
  have hsim : _similar "alpha beta gamma" "alpha beta delta" = true := by
    unfold _similar
    rw [if_neg h40]
    simp only [hws1, hws2, hov, List.isEmpty_cons, Bool.or_self, if_neg]
    norm_num
  have hmerge : addPatternList
      (servicePatterns
        (ensureService
          { services :=
              [("svc",
                { baselineMetrics := none
                  patterns := [insertPattern ⟨none, "latency_spike", "alpha beta gamma", some (1/2), none, none⟩ "pat-1" "t0"]
                  insights := [] })]
            globalPatterns := [], analysisHistory := [] } "svc") "svc")
      ⟨none, "latency_spike", "alpha beta delta", some (1/2), none, none⟩ "pat-2" "t1" =
      ([mergePattern
          (insertPattern ⟨none, "latency_spike", "alpha beta gamma", some (1/2), none, none⟩ "pat-1" "t0")
          ⟨none, "latency_spike", "alpha beta delta", some (1/2), none, none⟩ "t1"], "pat-1") := by
    show addPatternList
      [insertPattern ⟨none, "latency_spike", "alpha beta gamma", some (1/2), none, none⟩ "pat-1" "t0"]
      ⟨none, "latency_spike", "alpha beta delta", some (1/2), none, none⟩ "pat-2" "t1" = _
    unfold addPatternList
    rw [if_pos ⟨rfl, by simpa [insertPattern] using hsim⟩]
    rfl
  refine ⟨hjac, hsim, ?_, ?_⟩
  · simp only [add_pattern]
    rw [hmerge]
    rfl
  · simp only [add_pattern]
    rw [hmerge]

/-- C3 (amended): `add_pattern` merges exactly when an existing pattern has
an identical type and a similar description, where two descriptions are
similar iff their first 40 characters agree case-insensitively or the
lower-cased word-set overlap `|A ∩ B| / max(|A|, |B|)` exceeds 0.6 (not the
Jaccard quotient `|A ∩ B| / |A ∪ B|`); otherwise the new pattern is appended. -/
theorem C3_merge_condition :
    (∀ (ps : List Pattern) (p : PatternIn) (fid iso : String),
      ((∃ e ∈ ps, e.ptype = p.ptype ∧ _similar e.description p.description = true) →
        (addPatternList ps p fid iso).1.length = ps.length) ∧
      ((∀ e ∈ ps, ¬(e.ptype = p.ptype ∧ _similar e.description p.description = true)) →
        (addPatternList ps p fid iso).1 = ps ++ [insertPattern p fid iso])) ∧
    (∀ a b : String, _similar a b = true ↔
      ((a.toList.take 40).map Char.toLower = (b.toList.take 40).map Char.toLower ∨
        (wordSet a ≠ [] ∧ wordSet b ≠ [] ∧
          ((overlapCount (wordSet a) (wordSet b) : ℚ) /
            (max (wordSet a).length (wordSet b).length : ℚ) > 6/10)))) := by
  constructor
  · intro ps p fid iso
    induction ps with
    | nil =>
      refine ⟨fun h => by simp at h, fun _ => ?_⟩
      simp [addPatternList]
    | cons e rest ih =>
      by_cases hm : e.ptype = p.ptype ∧ _similar e.description p.description = true
      · refine ⟨fun _ => ?_, fun hall => ?_⟩
        · simp only [addPatternList, if_pos (show e.ptype = p.ptype ∧
            (_similar e.description p.description : Prop) from ⟨hm.1, by simp [hm.2]⟩)]
          simp
        · exact absurd hm (hall e (by simp))
      · have hcond : ¬(e.ptype = p.ptype ∧ (_similar e.description p.description : Prop)) := by
          intro hc
          exact hm ⟨hc.1, by simpa using hc.2⟩
        refine ⟨fun hex => ?_, fun hall => ?_⟩
        · rcases hex with ⟨x, hx, hxp⟩
          rcases List.mem_cons.mp hx with hhead | htail
          · exact absurd (hhead ▸ hxp) hm
          · simp only [addPatternList, if_neg hcond, List.length_cons]
            rw [ih.1 ⟨x, htail, hxp⟩]
        · simp only [addPatternList, if_neg hcond]
          rw [ih.2 (fun x hx => hall x (List.mem_cons_of_mem _ hx))]
          simp
  · intro a b
    unfold _similar
    by_cases h40 : (a.toList.take 40).map Char.toLower = (b.toList.take 40).map Char.toLower
    · rw [if_pos h40]
      exact ⟨fun _ => Or.inl h40, fun _ => rfl⟩
    · rw [if_neg h40]
      by_cases hemp : ((wordSet a).isEmpty || (wordSet b).isEmpty) = true
      · rw [if_pos hemp]
        refine iff_of_false (by simp) ?_
        rintro (hc | ⟨hna, hnb, _⟩)
        · exact h40 hc
        · have hemp' := hemp
          rw [Bool.or_eq_true] at hemp'
          rcases hemp' with he | he
          · exact hna (List.isEmpty_iff.mp he)
          · exact hnb (List.isEmpty_iff.mp he)
      · rw [if_neg hemp]
        have hna : wordSet a ≠ [] := by
          intro h
          exact hemp (by simp [h])
        have hnb : wordSet b ≠ [] := by
          intro h
          exact hemp (by simp [h])
        rw [decide_eq_true_iff]
        constructor
        · intro hq
          exact Or.inr ⟨hna, hnb, hq⟩
        · rintro (hc | ⟨_, _, hq⟩)
          · exact absurd hc h40
          · exact hq

/-- Concrete witness for C3: on an empty pattern list the insert path
appends, and on a matching singleton the merge path keeps one entry. -/
theorem C3_merge_condition_witness :
    (addPatternList [] ⟨none, "t", "d", none, none, none⟩ "f1" "n1").1 =
      [] ++ [insertPattern ⟨none, "t", "d", none, none, none⟩ "f1" "n1"] ∧
    (addPatternList [insertPattern ⟨none, "t", "d", none, none, none⟩ "f1" "n1"]
      ⟨none, "t", "d", none, none, none⟩ "f2" "n2").1.length = 1 :=
  ⟨(C3_merge_condition.1 [] ⟨none, "t", "d", none, none, none⟩ "f1" "n1").2 (by simp),
   (C3_merge_condition.1 [insertPattern ⟨none, "t", "d", none, none, none⟩ "f1" "n1"]
      ⟨none, "t", "d", none, none, none⟩ "f2" "n2").1
     ⟨insertPattern ⟨none, "t", "d", none, none, none⟩ "f1" "n1", by simp,
      by simp [insertPattern, _similar]⟩⟩

/-! ## Claim C2 support -/

/-- A description is always similar to itself (first-40 equality). -/
theorem _similar_refl (s : String) : _similar s s = true := by
  simp [_similar]

/-- When no existing entry matches, `add_pattern` appends and returns the
incoming or fresh id. -/
theorem addPatternList_no_match (ps : List Pattern) (p : PatternIn) (fid iso : String)
    (h : ∀ e ∈ ps, ¬(e.ptype = p.ptype ∧ _similar e.description p.description = true)) :
    addPatternList ps p fid iso = (ps ++ [insertPattern p fid iso], p.id.getD fid) := by
  induction ps with
  | nil => simp [addPatternList]
  | cons e rest ih =>
    have hcond : ¬(e.ptype = p.ptype ∧ (_similar e.description p.description : Prop)) := by
      intro hc
      exact h e (by simp) ⟨hc.1, by simpa using hc.2⟩
    have ih' := ih (fun x hx => h x (List.mem_cons_of_mem _ hx))
    simp only [addPatternList, if_neg hcond, ih']
    simp

/-- When the only matching entry is the last one, `add_pattern` merges into it
and returns its id. -/
theorem addPatternList_merge_last (pre : List Pattern) (e : Pattern) (p : PatternIn)
    (fid iso : String)
    (hpre : ∀ x ∈ pre, ¬(x.ptype = p.ptype ∧ _similar x.description p.description = true))
    (he : e.ptype = p.ptype) (hs : _similar e.description p.description = true) :
    addPatternList (pre ++ [e]) p fid iso = (pre ++ [mergePattern e p iso], e.id) := by
  induction pre with
  | nil =>
    simp only [List.nil_append, addPatternList]
    rw [if_pos ⟨he, by simpa using hs⟩]
  | cons x rest ih =>
    have hcond : ¬(x.ptype = p.ptype ∧ (_similar x.description p.description : Prop)) := by
      intro hc
      exact hpre x (by simp) ⟨hc.1, by simpa using hc.2⟩
    have ih' := ih (fun y hy => hpre y (List.mem_cons_of_mem _ hy))
    rw [List.cons_append]
    generalize hL : rest ++ [e] = L at ih' ⊢
    simp only [addPatternList, if_neg hcond, ih']
    simp

/-- `find?` skips a prefix in which nothing matches. -/
theorem find?_append_of_none {α : Type} (p : α → Bool) (l1 l2 : List α)
    (h : l1.find? p = none) : (l1 ++ l2).find? p = l2.find? p := by
  induction l1 with
  | nil => simp
  | cons a rest ih =>
    rcases hpa : p a with _ | _
    · simp only [List.cons_append, List.find?_cons, hpa]
      exact ih (by simpa [List.find?_cons, hpa] using h)
    · simp [List.find?_cons, hpa] at h

/-- After `_ensure_service`, the service key is present. -/
theorem ensureService_find_isSome (m : Memory) (s : String) :
    ((ensureService m s).services.find? (fun sd => sd.1 = s)).isSome := by
  unfold ensureService
  split
  · assumption
  · next h =>
    have hn : m.services.find? (fun sd => decide (sd.1 = s)) = none :=
      Option.not_isSome_iff_eq_none.mp h
    simp [find?_append_of_none _ _ _ hn]

/-- `_ensure_service` does not change the patterns read back for the service. -/
theorem servicePatterns_ensure (m : Memory) (s : String) :
    servicePatterns (ensureService m s) s = servicePatterns m s := by
  unfold ensureService
  split
  · rfl
  · next h =>
    have hn : m.services.find? (fun sd => decide (sd.1 = s)) = none :=
      Option.not_isSome_iff_eq_none.mp h
    simp [servicePatterns, find?_append_of_none _ _ _ hn, hn, emptyServiceData]

/-- Reading back the patterns just written for a present service. -/
theorem servicePatterns_set (m : Memory) (s : String) (ps : List Pattern)
    (h : (m.services.find? (fun sd => sd.1 = s)).isSome) :
    servicePatterns (setServicePatterns m s ps) s = ps := by
  have haux : ∀ l : List (String × ServiceData),
      (l.find? (fun sd => sd.1 = s)).isSome →
      servicePatterns
        { services := l.map (fun sd => if sd.1 = s then (sd.1, { sd.2 with patterns := ps }) else sd)
          globalPatterns := m.globalPatterns, analysisHistory := m.analysisHistory } s = ps := by
    intro l
    induction l with
    | nil =>
      intro hh
      simp at hh
    | cons sd rest ih =>
      intro hh
      by_cases hk : sd.1 = s
      · simp [servicePatterns, List.find?_cons, hk]
      · have hh' : (rest.find? (fun sd => decide (sd.1 = s))).isSome := by
          simpa [List.find?_cons, hk] using hh
        have ih' := ih hh'
        simpa [servicePatterns, List.find?_cons, hk] using ih'
  exact haux m.services h

/-- `add_pattern` acts on the service's pattern list exactly as
`addPatternList`, and returns the same id. -/
theorem add_pattern_patterns (m : Memory) (s : String) (p : PatternIn) (fid iso : String) :
    servicePatterns (add_pattern m s p fid iso).1 s =
      (addPatternList (servicePatterns m s) p fid iso).1 ∧
    (add_pattern m s p fid iso).2 = (addPatternList (servicePatterns m s) p fid iso).2 := by
  constructor
  · show servicePatterns
      (setServicePatterns (ensureService m s) s
        (addPatternList (servicePatterns (ensureService m s) s) p fid iso).1) s = _
    rw [servicePatterns_set _ _ _ (ensureService_find_isSome m s), servicePatterns_ensure]
  · show (addPatternList (servicePatterns (ensureService m s) s) p fid iso).2 = _
    rw [servicePatterns_ensure]

/-- The memory-level iteration reduces to the list-level iteration. -/
theorem addPatternIter_patterns (m : Memory) (s : String) (p : PatternIn)
    (fids isos : Nat → String) (n : Nat) :
    servicePatterns (addPatternIter m s p fids isos n) s =
      patternsAfter (servicePatterns m s) p fids isos n := by
  induction n with
  | zero => rfl
  | succ k ih =>
    simp only [addPatternIter, patternsAfter]
    rw [(add_pattern_patterns _ _ _ _ _).1, ih]

/-- After `n ≥ 1` identical calls the service holds the original entries plus
one merged entry carrying `occurrences = n` and `confidence = confIter c (n-1)`. -/
theorem patternsAfter_spec (ps : List Pattern) (p : PatternIn) (c : ℚ)
    (fids isos : Nat → String)
    (hnm : ∀ e ∈ ps, ¬(e.ptype = p.ptype ∧ _similar e.description p.description = true))
    (hid : p.id = none) (hocc : p.occurrences = none) (hconf : p.confidence = some c) :
    ∀ n, 1 ≤ n →
      patternsAfter ps p fids isos n =
        ps ++ [mergedEntry p c (fids 0) (isos 0) (isos (n - 1)) n] := by
  intro n hn
  induction n with
  | zero => omega
  | succ k ih =>
    rcases Nat.eq_or_lt_of_le hn with h1 | h1
    · have hk : k = 0 := by omega
      subst hk
      simp only [patternsAfter]
      rw [addPatternList_no_match ps p (fids 0) (isos 0) hnm]
      simp [insertPattern, mergedEntry, hid, hocc, hconf, confIter]
    · have hk1 : 1 ≤ k := by omega
      have hk' : k - 1 + 1 = k := by omega
      simp only [patternsAfter]
      rw [ih hk1, addPatternList_merge_last ps _ p (fids k) (isos k) hnm rfl
        (by simpa [mergedEntry] using _similar_refl p.description)]
      have hstep : confIter c k = min (99/100) (confIter c (k - 1) + 2/100) := by
        conv_lhs => rw [← hk']
        rfl
      have hmerge : mergePattern (mergedEntry p c (fids 0) (isos 0) (isos (k - 1)) k) p (isos k) =
          mergedEntry p c (fids 0) (isos 0) (isos k) (k + 1) := by
        unfold mergePattern mergedEntry
        cases hrec : p.recommendation <;>
          simp [hstep, Nat.add_sub_cancel]
      rw [hmerge]
      simp [mergedEntry]

/-- `confIter` is monotone non-decreasing and bounded by 0.99 whenever it
starts at or below 0.99. -/
theorem confIter_mono_bounded (c : ℚ) (hc : c ≤ 99/100) :
    ∀ n, confIter c n ≤ confIter c (n + 1) ∧ confIter c n ≤ 99/100 := by
  have hle : ∀ n, confIter c n ≤ 99/100 := by
    intro n
    cases n with
    | zero => exact hc
    | succ k => exact min_le_left _ _
  intro n
  refine ⟨?_, hle n⟩
  have hdef : confIter c (n + 1) = min (99/100) (confIter c n + 2/100) := rfl
  rw [hdef, le_min_iff]
  exact ⟨hle n, by linarith⟩

/-- Filtering tagged pattern pairs of one service. -/
theorem filter_tag_map (k s : String) (P : Pattern → Bool) (pats : List Pattern) :
    ((pats.map (fun q => (k, q))).filter (fun e => decide (e.1 = s) && P e.2)) =
      if k = s then (pats.filter P).map (fun q => (k, q)) else [] := by
  rw [List.filter_map]
  by_cases hk : k = s
  · rw [if_pos hk]
    congr 1
    apply List.filter_congr
    intro q _
    simp [Function.comp, hk]
  · rw [if_neg hk]
    have hnil : (pats.filter ((fun e => decide (e.1 = s) && P e.2) ∘ (fun q => (k, q)))) = [] := by
      apply List.filter_eq_nil_iff.mpr
      intro q _
      simp [Function.comp, hk]
    rw [hnil]
    rfl

/-- Counting tagged entries of one service inside the flattened pattern list. -/
theorem flatMap_tag_filter (l : List (String × ServiceData)) (s : String) (P : Pattern → Bool) :
    ((l.flatMap fun sd => sd.2.patterns.map (fun q => (sd.1, q))).filter
      (fun e => decide (e.1 = s) && P e.2)).length =
    ((l.filter (fun sd => sd.1 = s)).flatMap (fun sd => sd.2.patterns.filter P)).length := by
  induction l with
  | nil => rfl
  | cons sd rest ih =>
    rw [List.flatMap_cons, List.filter_append, List.length_append, ih, filter_tag_map]
    by_cases hk : sd.1 = s
    · rw [if_pos hk, List.filter_cons_of_pos (by simpa using hk), List.flatMap_cons,
        List.length_append, List.length_map]
    · rw [if_neg hk, List.filter_cons_of_neg (by simpa using hk)]
      simp

/-- With unique keys, the flattened count for a service is the count inside
that service's pattern list. -/
theorem flatMap_filter_eq_servicePatterns (m : Memory) (s : String) (P : Pattern → Bool)
    (hkeys : (m.services.map Prod.fst).Nodup) :
    ((m.services.filter (fun sd => sd.1 = s)).flatMap
      (fun sd => sd.2.patterns.filter P)).length =
    ((servicePatterns m s).filter P).length := by
  have haux : ∀ l : List (String × ServiceData), (l.map Prod.fst).Nodup →
      ((l.filter (fun sd => sd.1 = s)).flatMap (fun sd => sd.2.patterns.filter P)).length =
        ((servicePatterns
            { services := l, globalPatterns := m.globalPatterns
              analysisHistory := m.analysisHistory } s).filter P).length := by
    intro l
    induction l with
    | nil => intro _; rfl
    | cons sd rest ih =>
      intro hnd
      have hnd2 : sd.1 ∉ rest.map Prod.fst ∧ (rest.map Prod.fst).Nodup := by
        rw [List.map_cons, List.nodup_cons] at hnd
        exact hnd
      by_cases hk : sd.1 = s
      · rw [List.filter_cons_of_pos (by simpa using hk), List.flatMap_cons]
        have hrest : rest.filter (fun sd => decide (sd.1 = s)) = [] := by
          apply List.filter_eq_nil_iff.mpr
          intro x hx
          simp only [decide_eq_true_eq]
          intro hxs
          have hmem : x.1 ∈ rest.map Prod.fst := List.mem_map.mpr ⟨x, hx, rfl⟩
          rw [hxs, ← hk] at hmem
          exact hnd2.1 hmem
        rw [hrest]
        simp [servicePatterns, List.find?_cons, hk]
      · rw [List.filter_cons_of_neg (by simpa using hk)]
        have := ih hnd2.2
        simpa [servicePatterns, List.find?_cons, hk] using this
  exact haux m.services hkeys

/-- The service keys after `add_pattern` are those after `_ensure_service`. -/
theorem keys_add_pattern (m : Memory) (s : String) (p : PatternIn) (fid iso : String) :
    (add_pattern m s p fid iso).1.services.map Prod.fst =
      (ensureService m s).services.map Prod.fst := by
  show (setServicePatterns (ensureService m s) s _).services.map Prod.fst = _
  unfold setServicePatterns
  rw [List.map_map]
  apply List.map_congr_left
  intro sd _
  by_cases hk : sd.1 = s <;> simp [Function.comp, hk]

/-- `_ensure_service` keeps the key list duplicate-free. -/
theorem keys_ensure_nodup (m : Memory) (s : String)
    (h : (m.services.map Prod.fst).Nodup) :
    ((ensureService m s).services.map Prod.fst).Nodup := by
  unfold ensureService
  split
  · exact h
  · next hn =>
    have hn' : m.services.find? (fun sd => decide (sd.1 = s)) = none :=
      Option.not_isSome_iff_eq_none.mp hn
    have hsmem : s ∉ m.services.map Prod.fst := by
      intro hmem
      rcases List.mem_map.mp hmem with ⟨sd, hsd, hfst⟩
      have := List.find?_eq_none.mp hn' sd hsd
      simp [hfst] at this
    simp only [List.map_append, List.map_cons, List.map_nil]
    refine List.nodup_append.mpr ⟨h, List.nodup_singleton _, ?_⟩
    intro x hx hxs
    rw [List.mem_singleton] at hxs
    exact hsmem (hxs ▸ hx)

/-- Iterated `add_pattern` keeps the key list duplicate-free. -/
theorem keys_iter_nodup (m : Memory) (s : String) (p : PatternIn)
    (fids isos : Nat → String) (hkeys : (m.services.map Prod.fst).Nodup) :
    ∀ n, ((addPatternIter m s p fids isos n).services.map Prod.fst).Nodup := by
  intro n
  induction n with
  | zero => exact hkeys
  | succ k ih =>
    show ((add_pattern (addPatternIter m s p fids isos k) s p (fids k) (isos k)).1.services.map
      Prod.fst).Nodup
    rw [keys_add_pattern]
    exact keys_ensure_nodup _ _ ih

/-- `add_pattern` and its iteration leave global patterns untouched. -/
theorem globals_iter (m : Memory) (s : String) (p : PatternIn) (fids isos : Nat → String) :
    ∀ n, (addPatternIter m s p fids isos n).globalPatterns = m.globalPatterns := by
  intro n
  induction n with
  | zero => rfl
  | succ k ih =>
    show (add_pattern (addPatternIter m s p fids isos k) s p (fids k) (isos k)).1.globalPatterns =
      _
    unfold add_pattern setServicePatterns ensureService
    split <;> simpa using ih

/-! ## Claim C2 -/

/-- C2 counterexample: the pattern data model allows `confidence ∈ [0, 1]`.
Inserting the E2 pattern with confidence 1 stores confidence 1 (already above
0.99), and the second identical call *decreases* it to `min(0.99, 1.02) =
0.99 < 1` — so the evolving confidence is neither monotone non-decreasing nor
bounded by 0.99 as the claim states it. -/
theorem C2_counterexample :
    ((servicePatterns (addPatternIter defaultMemory "svc-a"
        ⟨none, "latency_spike", "P99 latency spikes every 4 hours", some 1, none, none⟩
        (fun n => "pat-" ++ toString n) (fun n => "t" ++ toString n) 1) "svc-a").map
      (fun e => e.confidence)) = [some 1] ∧
    ((servicePatterns (addPatternIter defaultMemory "svc-a"
        ⟨none, "latency_spike", "P99 latency spikes every 4 hours", some 1, none, none⟩
        (fun n => "pat-" ++ toString n) (fun n => "t" ++ toString n) 2) "svc-a").map
      (fun e => e.confidence)) = [some (99/100)] ∧
    ¬((1 : ℚ) ≤ 99/100) := by
  have hempty : servicePatterns defaultMemory "svc-a" = [] := rfl
  have hspec := patternsAfter_spec [] 
    ⟨none, "latency_spike", "P99 latency spikes every 4 hours", some 1, none, none⟩ 1
    (fun n => "pat-" ++ toString n) (fun n => "t" ++ toString n)
    (by simp) rfl rfl rfl
  have h1 := addPatternIter_patterns defaultMemory "svc-a"
    ⟨none, "latency_spike", "P99 latency spikes every 4 hours", some 1, none, none⟩
    (fun n => "pat-" ++ toString n) (fun n => "t" ++ toString n) 1
  have h2 := addPatternIter_patterns defaultMemory "svc-a"
    ⟨none, "latency_spike", "P99 latency spikes every 4 hours", some 1, none, none⟩
    (fun n => "pat-" ++ toString n) (fun n => "t" ++ toString n) 2
  rw [hempty] at h1 h2
  refine ⟨?_, ?_, by norm_num⟩
  · rw [h1, hspec 1 (by norm_num)]
    simp [mergedEntry, confIter]
  · rw [h2, hspec 2 (by norm_num)]
    have hc : confIter 1 1 = 99/100 := by
      show min ((99 : ℚ)/100) (1 + 2/100) = 99/100
      rw [min_eq_left (by norm_num)]
    simp [mergedEntry, hc]

/-- C2 (amended): starting from a store in which no existing pattern of
service `s` matches `p` (same type and similar description) and the fresh id
collides with no stored id, two identical `AddPattern(s, p)` calls return the
same id and leave exactly one matching entry in `GetAllPatterns()`; after the
second call `occurrences = 2` and `confidence = min(0.99, initial + 0.02)`;
over any number of repeated identical calls `occurrences` increments by one
per call, and — provided the initial confidence is at most 0.99 (from the
second call onward this holds automatically) — the confidence is monotone
non-decreasing and bounded by 0.99. -/
theorem C2_pattern_merge (m : Memory) (s : String) (p : PatternIn) (c : ℚ)
    (fids isos : Nat → String)
    (hnm : ∀ e ∈ servicePatterns m s,
      ¬(e.ptype = p.ptype ∧ _similar e.description p.description = true))
    (hid : p.id = none) (hocc : p.occurrences = none) (hconf : p.confidence = some c)
    (hkeys : (m.services.map Prod.fst).Nodup)
    (hfs : ∀ q ∈ servicePatterns m s, q.id ≠ fids 0)
    (hfg : ∀ g ∈ m.globalPatterns, g.id ≠ fids 0) :
    (add_pattern m s p (fids 0) (isos 0)).2 = fids 0 ∧
    (add_pattern (addPatternIter m s p fids isos 1) s p (fids 1) (isos 1)).2 = fids 0 ∧
    (∀ n, 1 ≤ n → servicePatterns (addPatternIter m s p fids isos n) s =
      servicePatterns m s ++ [mergedEntry p c (fids 0) (isos 0) (isos (n - 1)) n]) ∧
    (mergedEntry p c (fids 0) (isos 0) (isos 1) 2).occurrences = some 2 ∧
    (mergedEntry p c (fids 0) (isos 0) (isos 1) 2).confidence =
      some (min (99/100) (c + 2/100)) ∧
    ((get_all_patterns (addPatternIter m s p fids isos 2)).filter
      (fun e => decide (e.1 = s) && decide (e.2.id = fids 0))).length = 1 ∧
    (c ≤ 99/100 → ∀ n, confIter c n ≤ confIter c (n + 1) ∧ confIter c n ≤ 99/100) := by
  have hlist : ∀ n, 1 ≤ n → servicePatterns (addPatternIter m s p fids isos n) s =
      servicePatterns m s ++ [mergedEntry p c (fids 0) (isos 0) (isos (n - 1)) n] := by
    intro n hn
    rw [addPatternIter_patterns]
    exact patternsAfter_spec _ p c fids isos hnm hid hocc hconf n hn
  refine ⟨?_, ?_, hlist, rfl, ?_, ?_, fun hc => confIter_mono_bounded c hc⟩
  · rw [(add_pattern_patterns m s p (fids 0) (isos 0)).2,
      addPatternList_no_match _ _ _ _ hnm, hid]
    rfl
  · rw [(add_pattern_patterns _ s p (fids 1) (isos 1)).2, hlist 1 (by norm_num),
      addPatternList_merge_last _ _ _ _ _ hnm rfl
        (by simpa [mergedEntry] using _similar_refl p.description)]
    simp [mergedEntry]
  · simp [mergedEntry, confIter]
  · have hsplit : get_all_patterns (addPatternIter m s p fids isos 2) =
        ((addPatternIter m s p fids isos 2).services.flatMap
          (fun sd => sd.2.patterns.map (fun q => (sd.1, q)))) ++
        (addPatternIter m s p fids isos 2).globalPatterns.map (fun q => ("global", q)) := rfl
    rw [hsplit, List.filter_append, List.length_append,
      flatMap_tag_filter _ s (fun q => decide (q.id = fids 0)),
      flatMap_filter_eq_servicePatterns _ _ _ (keys_iter_nodup m s p fids isos hkeys 2),
      hlist 2 (by norm_num), List.filter_append, List.length_append,
      globals_iter m s p fids isos 2,
      filter_tag_map "global" s (fun q => decide (q.id = fids 0)) m.globalPatterns]
    have hofs : (servicePatterns m s).filter (fun q => decide (q.id = fids 0)) = [] := by
      apply List.filter_eq_nil_iff.mpr
      intro q hq
      simpa using hfs q hq
    have hofg : m.globalPatterns.filter (fun q => decide (q.id = fids 0)) = [] := by
      apply List.filter_eq_nil_iff.mpr
      intro q hq
      simpa using hfg q hq
    rw [hofs]
    by_cases hg : ("global" : String) = s
    · rw [if_pos hg, hofg]
      simp [mergedEntry]
    · rw [if_neg hg]
      simp [mergedEntry]

/-- Concrete witness for C2 on an empty store: the first call returns the
fresh id. -/
theorem C2_pattern_merge_witness :
    (add_pattern defaultMemory "svc-a"
      ⟨none, "latency_spike", "P99 latency spikes every 4 hours", some (1/2), none, none⟩
      "pat-0" "t0").2 = "pat-0" :=
  (C2_pattern_merge defaultMemory "svc-a"
    ⟨none, "latency_spike", "P99 latency spikes every 4 hours", some (1/2), none, none⟩ (1/2)
    (fun n => "pat-" ++ toString n) (fun n => "t" ++ toString n)
    (by simp [servicePatterns, defaultMemory]) rfl rfl rfl
    (by simp [defaultMemory]) (by simp [servicePatterns, defaultMemory])
    (by simp [defaultMemory])).1

/-! ## Claims C9 and C8 -/

/-- Scanning for an unknown work id finds nothing. -/
theorem extractFirst_eq_none (q : List WorkItem) (wid : Nat)
    (h : ∀ i ∈ q, i.id ≠ wid) : extractFirst q wid = none := by
  induction q with
  | nil => rfl
  | cons i rest ih =>
    have hi : ¬(i.id = wid) := h i (by simp)
    simp only [extractFirst, if_neg hi]
    rw [ih (fun x hx => h x (List.mem_cons_of_mem _ hx))]

/-- `complete_work` on an unknown id changes nothing at all. -/
theorem complete_work_unknown (st : CoordState) (wid : Nat) (success : Bool)
    (h : ∀ i ∈ st.work_queue, i.id ≠ wid) : complete_work st wid success = st := by
  unfold complete_work
  rw [extractFirst_eq_none _ _ h]

/-- C9 counterexample: a coordinator with one queued item (id 1); completing
the unknown id 999 answers the plain success payload `{"status":
"completed"}` (HTTP 200) with the state untouched — the endpoint has no
NotFound path at all, contradicting the claimed 404. -/
theorem C9_counterexample :
    route_complete_work ((coordEnqueue (initCoordState 0 "t0") "svc" "analyze" 0 "t1").1) 999 =
      ((coordEnqueue (initCoordState 0 "t0") "svc" "analyze" 0 "t1").1,
        { status := "completed", work_id := 999 }) := by
  unfold route_complete_work
  rw [complete_work_unknown _ _ _ (by decide)]

/-- C9 (amended): completing a work id that is not in the queue is a silent
no-op: the queue, completed ring and every replica's counters are unchanged,
and the route reports `status = "completed"` with HTTP 200 rather than any
404-equivalent error. -/
theorem C9_complete_unknown_silent_success (st : CoordState) (wid : Nat)
    (h : ∀ i ∈ st.work_queue, i.id ≠ wid) :
    route_complete_work st wid = (st, { status := "completed", work_id := wid }) := by
  unfold route_complete_work
  rw [complete_work_unknown _ _ _ h]

/-- Concrete witness for C9 at the freshly initialized coordinator (empty
queue). -/
theorem C9_complete_unknown_silent_success_witness :
    route_complete_work (initCoordState 0 "t") 5 =
      (initCoordState 0 "t", { status := "completed", work_id := 5 }) :=
  C9_complete_unknown_silent_success (initCoordState 0 "t") 5 (by decide)

/-- The replica dict never contains the int key `-1`. -/
theorem replicaDictIntKey_eq_none (l : List AgentReplica) (k : Int) :
    replicaDictIntKey l k = none := by
  unfold replicaDictIntKey
  induction l with
  | nil => rfl
  | cons r rest ih => simp [List.find?_cons, ih]

/-- C8: `POST /api/cluster/scale` with `direction="down"` and more than one
replica always evaluates `coord.replicas[-1]` — a dict subscript with the int
key `-1`, which matches no string key — and therefore raises `KeyError`
(HTTP 500) instead of performing the §4.G kill.  The coordinator state is
unchanged. -/
theorem C8_manual_scale_down_keyerror (st : CoordState) (reason : String) (now : ℚ)
    (iso : String) (h : 1 < st.replicas.length) :
    manual_scale st "down" reason now iso = Except.error RouteErr.keyError := by
  unfold manual_scale
  rw [if_neg (by decide : ¬("down" : String) = "up"), if_pos rfl,
    if_neg (by omega : ¬st.replicas.length ≤ 1), replicaDictIntKey_eq_none]

/-- Concrete witness for C8: a two-replica cluster. -/
theorem C8_manual_scale_down_keyerror_witness :
    manual_scale
      { replicas := [newReplica 0 "forge-primary" "t", newReplica 1 "forge-1" "t"]
        work_queue := [], completed_work := [], scale_events := [], last_scale_time := 0
        all_services := [], pending_validation := none, next_uid := 2 }
      "down" "manual" 20 "t2" = Except.error RouteErr.keyError :=
  C8_manual_scale_down_keyerror _ "manual" 20 "t2" (by decide)

/-! ## Claim C7 -/

/-- C7 counterexample: a store with exactly one insight whose text contains
the word "latency" (here: "latency spike") on service svc-x, and exactly one
`cascade_risk` pattern on svc-y.  Because "spike" is also a load-burst
keyword, `generate_strategies` emits *four* strategies (health sweep, latency
probe, load burst, cascade sim), not the claimed three. -/
theorem C7_counterexample :
    ((generate_strategies [⟨"svc-x", "", "latency spike", "low", "i1"⟩]
        [⟨"cascade_risk", some "svc-y", none, "p1", "", none⟩]).map (fun s => s.stype)) =
      ["health_sweep", "latency_probe", "load_burst", "cascade_sim"] ∧
    (generate_strategies [⟨"svc-x", "", "latency spike", "low", "i1"⟩]
        [⟨"cascade_risk", some "svc-y", none, "p1", "", none⟩]).length ≠ 3 := by
  have h710 : ¬((0 : ℚ) > 7/10) := by norm_num
  have hlat : anyKw latencyKeywords (pyLower "latency spike ") = true := by decide
  have hload : anyKw loadKeywords (pyLower "latency spike ") = true := by decide
  have hcasc : pyIn "cascade" "cascade_risk" = true := by decide
  have hdep1 : pyIn "dependency" "cascade_risk" = false := by decide
  have hdep2 : pyIn "bottleneck" "cascade_risk" = false := by decide
  have hm1 : ¬(("load-svc-x" : String) = "svc-x") := by decide
  have hm2 : ¬(("cascade-svc-y" : String) = "svc-x") := by decide
  have hm3 : ¬(("cascade-svc-y" : String) = "load-svc-x") := by decide
  constructor <;>
    simp [generate_strategies, stepInsight, stepPattern, healthSweepStrategy,
      hlat, hload, hcasc, hdep1, hdep2, h710, hm1, hm2, hm3]

/-- C7 (amended): with exactly one insight whose text contains "latency" but
none of the load-burst keywords (overload/cpu/spike/scale/capacity/traffic)
on service X, exactly one pattern of type `cascade_risk` on service Y, and
X not literally equal to "cascade-Y", `GenerateStrategies` returns exactly
three pairwise-distinct strategies: a `health_sweep` over the fixed core
endpoint set, a `latency_probe` targeting X and a `cascade_sim` targeting Y. -/
theorem C7_strategy_generation (i : InsightRec) (p : PatternRec)
    (hlat : pyIn "latency" (pyLower (i.insight ++ " " ++ i.title)) = true)
    (hload : anyKw loadKeywords (pyLower (i.insight ++ " " ++ i.title)) = false)
    (hpt : p.ptype = "cascade_risk")
    (hne : ("cascade-" ++ svcOf p) ≠ i.service) :
    (generate_strategies [i] [p]).map (fun s => (s.stype, s.target)) =
      [("health_sweep", "all"), ("latency_probe", i.service), ("cascade_sim", svcOf p)] ∧
    ((generate_strategies [i] [p]).map (fun s => s.stype)).Nodup ∧
    (∀ s ∈ generate_strategies [i] [p], s.stype = "health_sweep" →
      s.endpoints = coreEndpointPaths) := by
  have hlat' : anyKw latencyKeywords (pyLower (i.insight ++ " " ++ i.title)) = true := by
    simp [anyKw, latencyKeywords, hlat]
  have hcasc : pyIn "cascade" p.ptype = true := by rw [hpt]; decide
  have hdep1 : pyIn "dependency" p.ptype = false := by rw [hpt]; decide
  have hdep2 : pyIn "bottleneck" p.ptype = false := by rw [hpt]; decide
  simp only [svcOf] at hne
  refine ⟨?_, ?_, ?_⟩ <;>
    simp [generate_strategies, stepInsight, stepPattern, healthSweepStrategy, svcOf,
      hlat', hload, hcasc, hdep1, hdep2, hne, coreEndpointPaths]

/-- Concrete witness for C7: one "P99 latency regression" insight on
payment-service and one cascade_risk pattern on order-service produce the
three expected strategies. -/
theorem C7_strategy_generation_witness :
    (generate_strategies [⟨"payment-service", "", "p99 latency regression", "high", "i9"⟩]
        [⟨"cascade_risk", some "order-service", none, "p9", "d", some (4/5)⟩]).map
      (fun s => (s.stype, s.target)) =
      [("health_sweep", "all"), ("latency_probe", "payment-service"),
        ("cascade_sim", svcOf ⟨"cascade_risk", some "order-service", none, "p9", "d", some (4/5)⟩)] :=
  (C7_strategy_generation ⟨"payment-service", "", "p99 latency regression", "high", "i9"⟩
    ⟨"cascade_risk", some "order-service", none, "p9", "d", some (4/5)⟩
    (by decide) (by decide) rfl (by decide)).1

/-! ## Claim C4 support -/

/-- Whatever the draw, the chosen health score is on the fixed ladder. -/
theorem ladder_getD_mem (d : Nat) :
    healthLadder.getD (d % healthLadder.length) 0 ∈ healthLadder := by
  have h : d % healthLadder.length < healthLadder.length :=
    Nat.mod_lt _ (by norm_num [healthLadder])
  rw [List.getD_eq_getElem _ _ h]
  exact List.getElem_mem h

/-- `record_analysis` grows the history by one, capped at 100. -/
theorem record_analysis_length (m : Memory) (sess : Session) :
    (record_analysis m sess).analysisHistory.length = min (m.analysisHistory.length + 1) 100 := by
  simp only [record_analysis]
  split
  · next h =>
    simp only [List.length_drop]
    simp only [List.length_append, List.length_cons, List.length_nil] at *
    omega
  · next h =>
    simp only [List.length_append, List.length_cons, List.length_nil] at *
    omega

/-- A key-preserving map commutes with `find?` by key. -/
theorem find?_map_key (f : String × ServiceData → String × ServiceData)
    (hf : ∀ sd, (f sd).1 = sd.1) (l : List (String × ServiceData)) (s : String) :
    (l.map f).find? (fun sd => sd.1 = s) = (l.find? (fun sd => sd.1 = s)).map f := by
  induction l with
  | nil => rfl
  | cons sd rest ih =>
    by_cases hk : sd.1 = s
    · rw [List.map_cons, List.find?_cons_of_pos _ (by simp [hf, hk]),
        List.find?_cons_of_pos _ (by simp [hk])]
      rfl
    · rw [List.map_cons, List.find?_cons_of_neg _ (by simp [hf, hk]),
        List.find?_cons_of_neg _ (by simp [hk]), ih]

/-- `find?` keeps its first hit under appending. -/
theorem find?_append_of_some {α : Type} (p : α → Bool) (l1 l2 : List α) (a : α)
    (h : l1.find? p = some a) : (l1 ++ l2).find? p = some a := by
  induction l1 with
  | nil => simp at h
  | cons x rest ih =>
    rcases hx : p x with _ | _
    · rw [List.cons_append, List.find?_cons_of_neg _ (by simp [hx])]
      exact ih (by rwa [List.find?_cons_of_neg _ (by simp [hx])] at h)
    · rw [List.cons_append, List.find?_cons_of_pos _ hx]
      rwa [List.find?_cons_of_pos _ hx] at h

/-- Evaluating `baselineExists` through a `mapService` update. -/
theorem baselineExists_mapService (m : Memory) (s : String) (f : ServiceData → ServiceData) :
    baselineExists (mapService m s f) s =
      (match m.services.find? (fun sd => sd.1 = s) with
        | some sd => (f sd.2).baselineMetrics.isSome
        | none => false) := by
  unfold baselineExists mapService
  rw [find?_map_key (fun sd => if sd.1 = s then (sd.1, f sd.2) else sd)
    (by intro sd; by_cases h : sd.1 = s <;> simp [h]) m.services s]
  cases hf : m.services.find? (fun sd => sd.1 = s) with
  | none => rfl
  | some e =>
    have he : e.1 = s := by simpa using List.find?_some hf
    simp [he]

/-- `update_baseline` makes the baseline exist. -/
theorem baselineExists_update_baseline (m : Memory) (s : String)
    (met : List (String × ℚ)) (iso : String) :
    baselineExists (update_baseline m s met iso) s = true := by
  unfold update_baseline
  rw [baselineExists_mapService]
  rcases hsome : (ensureService m s).services.find? (fun sd => sd.1 = s) with _ | e
  · have := ensureService_find_isSome m s
    rw [hsome] at this
    simp at this
  · simp [hsome]

/-- A `mapService` that does not touch baselines does not change
`baselineExists`. -/
theorem baselineExists_mapService_preserve (m : Memory) (s s' : String)
    (f : ServiceData → ServiceData)
    (hf : ∀ d, (f d).baselineMetrics = d.baselineMetrics) :
    baselineExists (mapService m s' f) s = baselineExists m s := by
  unfold baselineExists mapService
  rw [find?_map_key (fun sd => if sd.1 = s' then (sd.1, f sd.2) else sd)
    (by intro sd; by_cases h : sd.1 = s' <;> simp [h]) m.services s]
  cases hf2 : m.services.find? (fun sd => sd.1 = s) with
  | none => rfl
  | some e => by_cases hk : e.1 = s' <;> simp [hk, hf]

/-- `_ensure_service` keeps an existing baseline visible. -/
theorem baselineExists_ensure (m : Memory) (s s' : String)
    (h : baselineExists m s = true) :
    baselineExists (ensureService m s') s = true := by
  unfold ensureService
  split
  · exact h
  · unfold baselineExists at h ⊢
    rcases hf : m.services.find? (fun sd => decide (sd.1 = s)) with _ | e
    · rw [hf] at h
      simp at h
    · rw [find?_append_of_some _ _ _ _ hf]
      rw [hf] at h
      exact h

/-- `add_insight` keeps the baseline. -/
theorem baselineExists_add_insight (m : Memory) (s iid : String)
    (h : baselineExists m s = true) :
    baselineExists (add_insight m s iid).1 s = true := by
  show baselineExists
    (mapService (ensureService m s) s (fun d => { d with insights := d.insights ++ [iid] })) s = true
  rw [baselineExists_mapService_preserve (ensureService m s) s s
    (fun d => { d with insights := d.insights ++ [iid] }) (fun d => rfl)]
  exact baselineExists_ensure m s s h

/-- `add_pattern` keeps the baseline. -/
theorem baselineExists_add_pattern (m : Memory) (s : String) (p : PatternIn)
    (fid iso : String) (h : baselineExists m s = true) :
    baselineExists (add_pattern m s p fid iso).1 s = true := by
  show baselineExists
    (mapService (ensureService m s) s
      (fun d => { d with patterns := (addPatternList (servicePatterns (ensureService m s) s) p fid iso).1 })) s = true
  rw [baselineExists_mapService_preserve (ensureService m s) s s
    (fun d => { d with patterns := (addPatternList (servicePatterns (ensureService m s) s) p fid iso).1 })
    (fun d => rfl)]
  exact baselineExists_ensure m s s h

/-- The demo insight generator leaves the service with a baseline. -/
theorem baselineExists_generate_demo (m : Memory) (s : String)
    (metrics : List (String × ℚ)) (iids : List String)
    (pats : List (PatternIn × String)) (iso : String) :
    baselineExists (generate_demo_insights_for_service m s metrics iids pats iso) s = true := by
  unfold generate_demo_insights_for_service
  have hins : ∀ (l : List String) (m0 : Memory), baselineExists m0 s = true →
      baselineExists (l.foldl (fun acc iid => (add_insight acc s iid).1) m0) s = true := by
    intro l
    induction l with
    | nil => intro m0 h; exact h
    | cons x rest ih =>
      intro m0 h
      exact ih _ (baselineExists_add_insight m0 s x h)
  have hpat : ∀ (l : List (PatternIn × String)) (m0 : Memory), baselineExists m0 s = true →
      baselineExists (l.foldl (fun acc pr => (add_pattern acc s pr.1 pr.2 iso).1) m0) s = true := by
    intro l
    induction l with
    | nil => intro m0 h; exact h
    | cons x rest ih =>
      intro m0 h
      exact ih _ (baselineExists_add_pattern m0 s x.1 x.2 iso h)
  exact hpat pats _ (hins iids _ (baselineExists_update_baseline m s metrics iso))

/-- None of the per-service store writes touch the analysis history. -/
theorem history_update_baseline (m : Memory) (s : String) (met : List (String × ℚ))
    (iso : String) :
    (update_baseline m s met iso).analysisHistory = m.analysisHistory := by
  unfold update_baseline mapService ensureService
  split <;> rfl

/-- `add_insight` does not touch the analysis history. -/
theorem history_add_insight (m : Memory) (s iid : String) :
    (add_insight m s iid).1.analysisHistory = m.analysisHistory := by
  unfold add_insight mapService ensureService
  split <;> rfl

/-- `add_pattern` does not touch the analysis history. -/
theorem history_add_pattern (m : Memory) (s : String) (p : PatternIn) (fid iso : String) :
    (add_pattern m s p fid iso).1.analysisHistory = m.analysisHistory := by
  unfold add_pattern setServicePatterns ensureService
  split <;> rfl

/-- The demo insight generator does not touch the analysis history. -/
theorem history_generate_demo (m : Memory) (s : String) (metrics : List (String × ℚ))
    (iids : List String) (pats : List (PatternIn × String)) (iso : String) :
    (generate_demo_insights_for_service m s metrics iids pats iso).analysisHistory =
      m.analysisHistory := by
  unfold generate_demo_insights_for_service
  have hins : ∀ (l : List String) (m0 : Memory),
      (l.foldl (fun acc iid => (add_insight acc s iid).1) m0).analysisHistory =
        m0.analysisHistory := by
    intro l
    induction l with
    | nil => intro m0; rfl
    | cons x rest ih =>
      intro m0
      rw [List.foldl_cons, ih, history_add_insight]
  have hpat : ∀ (l : List (PatternIn × String)) (m0 : Memory),
      (l.foldl (fun acc pr => (add_pattern acc s pr.1 pr.2 iso).1) m0).analysisHistory =
        m0.analysisHistory := by
    intro l
    induction l with
    | nil => intro m0; rfl
    | cons x rest ih =>
      intro m0
      rw [List.foldl_cons, ih, history_add_pattern]
  rw [hpat, hins, history_update_baseline]

/-! ## Claim C4 -/

/-- C4: with every LLM invocation failing, the fallback report is a pure
function of the pseudo-random stream seeded by the service name's character
sum plus the wall-clock hour: two calls in the same hour — whatever run ids,
timestamps, memory contents, or demo-insight draws they see — agree on
`health_score`, `status`, and the root-cause string; the health score comes
from the fixed ladder {95, 88, 72, 65, 42, 38, 25}; the status is derived
from health by the 80/50 thresholds; each call appends one analysis session
(ring-capped at 100), and afterwards a baseline exists for the service. -/
theorem C4_demo_fallback_deterministic (draw : Nat → Nat → Nat) (ufn : Nat → Nat → ℚ)
    (name : String) (hour : Nat) (rid1 rid2 sess1 sess2 iso1 iso2 : String)
    (m1 m2 : Memory) (gm1 gm2 : List (String × ℚ)) (gi1 gi2 : List String)
    (gp1 gp2 : List (PatternIn × String)) :
    (analyze_service_fallback draw ufn name hour rid1 sess1 iso1 m1 gm1 gi1 gp1).1.health_score =
      (analyze_service_fallback draw ufn name hour rid2 sess2 iso2 m2 gm2 gi2 gp2).1.health_score ∧
    (analyze_service_fallback draw ufn name hour rid1 sess1 iso1 m1 gm1 gi1 gp1).1.status =
      (analyze_service_fallback draw ufn name hour rid2 sess2 iso2 m2 gm2 gi2 gp2).1.status ∧
    (analyze_service_fallback draw ufn name hour rid1 sess1 iso1 m1 gm1 gi1 gp1).1.root_cause =
      (analyze_service_fallback draw ufn name hour rid2 sess2 iso2 m2 gm2 gi2 gp2).1.root_cause ∧
    (analyze_service_fallback draw ufn name hour rid1 sess1 iso1 m1 gm1 gi1 gp1).1.health_score ∈
      healthLadder ∧
    (analyze_service_fallback draw ufn name hour rid1 sess1 iso1 m1 gm1 gi1 gp1).1.status =
      (if 80 ≤ (analyze_service_fallback draw ufn name hour rid1 sess1 iso1 m1 gm1 gi1 gp1).1.health_score
        then "healthy"
        else if 50 ≤ (analyze_service_fallback draw ufn name hour rid1 sess1 iso1 m1 gm1 gi1 gp1).1.health_score
          then "degraded" else "critical") ∧
    (analyze_service_fallback draw ufn name hour rid1 sess1 iso1 m1 gm1 gi1 gp1).2.analysisHistory.length =
      min (m1.analysisHistory.length + 1) 100 ∧
    baselineExists (analyze_service_fallback draw ufn name hour rid1 sess1 iso1 m1 gm1 gi1 gp1).2 name =
      true := by
  refine ⟨rfl, rfl, rfl, ?_, ?_, ?_, ?_⟩
  · exact ladder_getD_mem (draw ((name.toList.map Char.toNat).sum + hour) 0)
  · rfl
  · show (generate_demo_insights_for_service
      (update_baseline (record_analysis m1 _) name _ iso1) name gm1 gi1 gp1 iso1).analysisHistory.length = _
    rw [history_generate_demo, history_update_baseline, record_analysis_length]
  · show baselineExists (generate_demo_insights_for_service
      (update_baseline (record_analysis m1 _) name _ iso1) name gm1 gi1 gp1 iso1) name = true
    exact baselineExists_generate_demo _ _ _ _ _ _

/-! ## Claim C5 support -/

/-- `getD` at the just-written index of `set`. -/
theorem getD_set_self : ∀ (l : List (List String)) (j : Nat) (x : List String),
    j < l.length → (l.set j x).getD j [] = x
  | [], j, x, h => absurd h (by simp)
  | _ :: _, 0, x, _ => rfl
  | _ :: l, j + 1, x, h => getD_set_self l j x (by simpa using h)

/-- `getD` away from the written index of `set`. -/
theorem getD_set_ne : ∀ (l : List (List String)) (i j : Nat) (x : List String),
    i ≠ j → (l.set i x).getD j [] = l.getD j []
  | [], _, _, _, _ => rfl
  | _ :: _, 0, 0, x, h => absurd rfl h
  | _ :: _, 0, _ + 1, x, _ => rfl
  | _ :: _, _ + 1, 0, x, _ => rfl
  | _ :: l, i + 1, j + 1, x, h => getD_set_ne l i j x (by omega)

/-- `getD` of a replicate of empty lists is always empty. -/
theorem getD_replicate_nil : ∀ (k j : Nat), (List.replicate k ([] : List String)).getD j [] = []
  | 0, _ => rfl
  | _ + 1, 0 => rfl
  | k + 1, j + 1 => getD_replicate_nil k j

/-- The round-robin fold preserves the number of buckets. -/
theorem rr_foldl_length (k : Nat) (ps : List (Nat × String)) (buckets : List (List String)) :
    (ps.foldl (rrStep k) buckets).length = buckets.length := by
  induction ps generalizing buckets with
  | nil => rfl
  | cons p rest ih =>
    rw [List.foldl_cons, ih]
    simp [rrStep]

/-- `rrDistribute` always produces `k` buckets. -/
theorem rrDistribute_length (k : Nat) (svcs : List String) :
    (rrDistribute k svcs).length = k := by
  unfold rrDistribute
  rw [rr_foldl_length]
  exact List.length_replicate k []

/-- Bucket `j` after the round-robin fold: the initial content followed by the
enumerated entries whose index is congruent to `j` mod `k`. -/
theorem rr_foldl_getD (k : Nat) (j : Nat) (hj : j < k) :
    ∀ (ps : List (Nat × String)) (buckets : List (List String)), buckets.length = k →
      (ps.foldl (rrStep k) buckets).getD j [] =
        buckets.getD j [] ++ (ps.filter (fun p => p.1 % k = j)).map Prod.snd := by
  intro ps
  induction ps with
  | nil =>
    intro buckets _
    simp
  | cons p rest ih =>
    intro buckets hlen
    rw [List.foldl_cons, ih (rrStep k buckets p) (by simp [rrStep, hlen])]
    by_cases hpj : p.1 % k = j
    · rw [List.filter_cons_of_pos (by simpa using hpj)]
      have hset : (rrStep k buckets p).getD j [] = buckets.getD j [] ++ [p.2] := by
        unfold rrStep
        rw [hpj]
        exact getD_set_self buckets j _ (hlen ▸ hj)
      rw [hset]
      simp
    · rw [List.filter_cons_of_neg (by simpa using hpj)]
      have hset : (rrStep k buckets p).getD j [] = buckets.getD j [] := by
        unfold rrStep
        exact getD_set_ne buckets (p.1 % k) j _ hpj
      rw [hset]

/-- Bucket `j` of the distribution is exactly slot `j` of the round robin. -/
theorem rrDistribute_getD (k : Nat) (j : Nat) (hj : j < k) (svcs : List String) :
    (rrDistribute k svcs).getD j [] = rrSlot j k svcs := by
  unfold rrDistribute rrSlot
  rw [rr_foldl_getD k j hj svcs.enum _ (List.length_replicate k []), getD_replicate_nil]
  rfl

/-- `assignBuckets` commutes with filtering the running replicas. -/
theorem assignBuckets_filter (l : List AgentReplica) (b : List (List String)) :
    ∀ i, (assignBuckets l b i).filter (fun r => r.status = "running") =
      assignAll (l.filter (fun r => r.status = "running")) b i := by
  induction l with
  | nil => intro i; rfl
  | cons r rest ih =>
    intro i
    by_cases hs : r.status = "running"
    · simp only [assignBuckets, if_pos hs]
      rw [List.filter_cons_of_pos (by simpa using hs),
        List.filter_cons_of_pos (by simpa using hs)]
      show _ = assignAll _ b i
      unfold assignAll
      rw [ih (i + 1)]
    · simp only [assignBuckets, if_neg hs]
      rw [List.filter_cons_of_neg (by simpa using hs),
        List.filter_cons_of_neg (by simpa using hs)]
      exact ih i

/-- Counting over the assigned lists of `assignAll` is counting over the
corresponding buckets. -/
theorem assignAll_countP (q : List String → Bool) :
    ∀ (l : List AgentReplica) (b : List (List String)) (i : Nat),
      (assignAll l b i).countP (fun r => q r.assigned_services) =
        ((List.range l.length).map (fun j => b.getD (i + j) [])).countP q := by
  intro l
  induction l with
  | nil => intro b i; rfl
  | cons r rest ih =>
    intro b i
    show (assignAll (r :: rest) b i).countP (fun r => q r.assigned_services) = _
    unfold assignAll
    rw [List.countP_cons, ih b (i + 1), List.length_cons, List.range_succ_eq_map,
      List.map_cons, List.countP_cons, List.map_map]
    have hmap : (List.range rest.length).map ((fun j => b.getD (i + j) []) ∘ Nat.succ) =
        (List.range rest.length).map (fun j => b.getD (i + 1 + j) []) := by
      apply List.map_congr_left
      intro j _
      show b.getD (i + Nat.succ j) [] = b.getD (i + 1 + j) []
      congr 1
      omega
    rw [hmap]
    simp

/-- Every replica in `assignAll` carries one of the buckets `i`, `i+1`, …. -/
theorem assignAll_mem (b : List (List String)) :
    ∀ (l : List AgentReplica) (i : Nat), ∀ r ∈ assignAll l b i,
      ∃ j, j < l.length ∧ r.assigned_services = b.getD (i + j) [] := by
  intro l
  induction l with
  | nil => intro i r hr; simp [assignAll] at hr
  | cons x rest ih =>
    intro i r hr
    unfold assignAll at hr
    rcases List.mem_cons.mp hr with h | h
    · exact ⟨0, by simp, by simp [h]⟩
    · rcases ih (i + 1) r h with ⟨j, hj, hjb⟩
      exact ⟨j + 1, by simp only [List.length_cons]; omega, by rw [hjb]; congr 1; omega⟩

/-- Number of indices below `n` in residue class `j` mod `k`. -/
theorem countP_mod_range (k j : Nat) (hk : 0 < k) (hj : j < k) :
    ∀ n, (List.range n).countP (fun idx => idx % k = j) =
      n / k + if j < n % k then 1 else 0 := by
  intro n
  induction n with
  | zero => simp
  | succ n ih =>
    have hone : (List.range (n + 1)).countP (fun idx => idx % k = j) =
        (List.range n).countP (fun idx => idx % k = j) + (if n % k = j then 1 else 0) := by
      rw [List.range_succ, List.countP_append]
      simp [List.countP_cons]
    rw [hone, ih]
    have hdm := Nat.div_add_mod n k
    have hmlt : n % k < k := Nat.mod_lt _ hk
    rcases Nat.lt_or_ge (n % k + 1) k with hlt | hge
    · have hmod : (n + 1) % k = n % k + 1 := by
        conv_lhs => rw [← hdm]
        rw [Nat.add_assoc, Nat.mul_add_mod, Nat.mod_eq_of_lt hlt]
      have hdiv : (n + 1) / k = n / k := by
        conv_lhs => rw [← hdm]
        rw [Nat.add_assoc, Nat.mul_add_div hk, Nat.div_eq_of_lt hlt]
        omega
      rw [hmod, hdiv]
      split_ifs <;> omega

    · have hkk : n % k + 1 = k := by omega
      have hn1 : n + 1 = k * (n / k + 1) := by
        rw [Nat.mul_succ]
        omega
      have hmod : (n + 1) % k = 0 := by
        rw [hn1]
        exact Nat.mul_mod_right k _
      have hdiv : (n + 1) / k = n / k + 1 := by
        rw [hn1]
        exact Nat.mul_div_cancel_left _ hk
      rw [hmod, hdiv]
      split_ifs <;> omega

/-- There is exactly one index below `k` matching a fixed value below `k`. -/
theorem countP_range_eq_self (k x : Nat) (hx : x < k) :
    (List.range k).countP (fun j => decide (x = j)) = 1 := by
  have h1 : (List.range k).countP (fun j => decide (x = j)) =
      (List.range k).count x := by
    apply List.countP_congr
    intro j _
    simp only [decide_eq_true_eq, beq_iff_eq]
    exact eq_comm
  rw [h1]
  exact List.count_eq_one_of_mem (List.nodup_range k) (List.mem_range.mpr hx)

/-- The length of a round-robin slot: `⌊n/k⌋` services, plus one for the
first `n mod k` slots. -/
theorem rrSlot_length (j k : Nat) (hk : 0 < k) (hj : j < k) (svcs : List String) :
    (rrSlot j k svcs).length =
      svcs.length / k + if j < svcs.length % k then 1 else 0 := by
  unfold rrSlot
  rw [List.length_map, ← List.countP_eq_length_filter]
  have h1 : svcs.enum.countP (fun p => decide (p.1 % k = j)) =
      (svcs.enum.map Prod.fst).countP (fun i => decide (i % k = j)) := by
    rw [List.countP_map]
    rfl
  rw [h1, List.enum_map_fst]
  exact countP_mod_range k j hk hj svcs.length

/-- Membership in a round-robin slot, for a duplicate-free service list:
the service at index `i0` lands in slot `j` exactly when `i0 % k = j`. -/
theorem mem_rrSlot_iff (s : String) (svcs : List String) (hnd : svcs.Nodup)
    (i0 : Nat) (hi0 : i0 < svcs.length) (hg : svcs[i0] = s) (k j : Nat) :
    s ∈ rrSlot j k svcs ↔ i0 % k = j := by
  unfold rrSlot
  constructor
  · intro h
    rcases List.mem_map.mp h with ⟨p, hp, hps⟩
    rcases List.mem_filter.mp hp with ⟨hpe, hpj⟩
    have hlt : p.1 < svcs.length := List.fst_lt_of_mem_enum hpe
    have hget : svcs[p.1]? = some p.2 := List.mem_enum_iff_getElem?.mp hpe
    have hgeq : svcs[p.1] = svcs[i0] := by
      rw [List.getElem?_eq_getElem hlt] at hget
      rw [Option.some.inj hget, hps, hg]
    have hpi : p.1 = i0 := (hnd.getElem_inj_iff).mp hgeq
    rw [← hpi]
    exact of_decide_eq_true hpj
  · intro h
    apply List.mem_map.mpr
    refine ⟨(i0, s), List.mem_filter.mpr ⟨?_, ?_⟩, rfl⟩
    · apply List.mem_enum_iff_getElem?.mpr
      show svcs[i0]? = some s
      rw [List.getElem?_eq_getElem hi0, hg]
    · exact decide_eq_true h

/-- Claim C5: after `_rebalance_partitions` on a state with at least one
running replica and a non-empty, duplicate-free known-service list, every
known service appears in exactly one running replica's `assigned_services`,
and the assignment counts of any two running replicas differ by at most 1. -/
theorem C5_rebalance (st : CoordState)
    (hrun : runningOf st ≠ []) (hsvc : st.all_services ≠ [])
    (hnd : st.all_services.Nodup) :
    (∀ s ∈ st.all_services,
      (runningOf (_rebalance_partitions st)).countP
        (fun r => decide (s ∈ r.assigned_services)) = 1) ∧
    (∀ r1 ∈ runningOf (_rebalance_partitions st),
      ∀ r2 ∈ runningOf (_rebalance_partitions st),
        r1.assigned_services.length ≤ r2.assigned_services.length + 1) := by
  have hk : 0 < (runningOf st).length := List.length_pos.mpr hrun
  have h1 : (runningOf st).isEmpty = false := by
    cases hc : runningOf st with
    | nil => exact absurd hc hrun
    | cons a l => rfl
  have h2 : st.all_services.isEmpty = false := by
    cases hc : st.all_services with
    | nil => exact absurd hc hsvc
    | cons a l => rfl
  have hguard : ((runningOf st).isEmpty || st.all_services.isEmpty) = false := by
    rw [h1, h2]
    rfl
  have hrr : runningOf (_rebalance_partitions st) =
      assignAll (runningOf st)
        (rrDistribute (runningOf st).length st.all_services) 0 := by
    simp only [_rebalance_partitions, hguard, Bool.false_eq_true, if_false]
    exact assignBuckets_filter st.replicas _ 0
  constructor
  · intro s hs
    rcases List.mem_iff_getElem.mp hs with ⟨i0, hi0, hg⟩
    rw [hrr, assignAll_countP (fun ls => decide (s ∈ ls)) (runningOf st) _ 0,
      List.countP_map]
    have hcg : ∀ j ∈ List.range (runningOf st).length,
        (((fun ls => decide (s ∈ ls)) ∘ fun j =>
            (rrDistribute (runningOf st).length st.all_services).getD (0 + j) []) j
          = true ↔
         (fun j => decide (i0 % (runningOf st).length = j)) j = true) := by
      intro j hj
      have hjk : j < (runningOf st).length := List.mem_range.mp hj
      show decide (s ∈ (rrDistribute (runningOf st).length st.all_services).getD
        (0 + j) []) = true ↔ _
      rw [Nat.zero_add, rrDistribute_getD _ j hjk st.all_services]
      simp only [decide_eq_true_eq]
      exact mem_rrSlot_iff s st.all_services hnd i0 hi0 hg _ j
    rw [List.countP_congr hcg]
    exact countP_range_eq_self _ _ (Nat.mod_lt _ hk)
  · intro r1 hr1 r2 hr2
    rw [hrr] at hr1 hr2
    obtain ⟨j1, hj1, hb1⟩ := assignAll_mem _ (runningOf st) 0 r1 hr1
    obtain ⟨j2, hj2, hb2⟩ := assignAll_mem _ (runningOf st) 0 r2 hr2
    rw [Nat.zero_add] at hb1 hb2
    rw [rrDistribute_getD _ j1 hj1 st.all_services] at hb1
    rw [rrDistribute_getD _ j2 hj2 st.all_services] at hb2
    rw [hb1, hb2, rrSlot_length j1 _ hk hj1, rrSlot_length j2 _ hk hj2]
    split_ifs <;> omega

/-- Witness for `C5_rebalance`: on the two-replica, three-service state the
hypotheses hold and service `svc-a` is assigned to exactly one running
replica. -/
theorem C5_rebalance_witness :
    (runningOf exRebState ≠ [] ∧ exRebState.all_services ≠ [] ∧
      exRebState.all_services.Nodup) ∧
    (runningOf (_rebalance_partitions exRebState)).countP
      (fun r => decide ("svc-a" ∈ r.assigned_services)) = 1 :=
  ⟨⟨by decide, by decide, by decide⟩,
    (C5_rebalance exRebState (by decide) (by decide) (by decide)).1 "svc-a"
      (by decide)⟩

/-! ## Claim C1 support -/

/-- Mapping a pointwise signature-preserving function preserves the
signature image. -/
theorem map_repSig_of_pointwise (f : AgentReplica → AgentReplica)
    (hf : ∀ r, repSig (f r) = repSig r) (l : List AgentReplica) :
    (l.map f).map repSig = l.map repSig := by
  rw [List.map_map]
  exact List.map_congr_left (fun r _ => hf r)

/-- The monitor phase preserves replica signatures. -/
theorem monitorUpdate_sig (rand : Nat → ℚ × ℚ) (iso : String) :
    ∀ (l : List AgentReplica) (i : Nat),
      (monitorUpdate l rand iso i).map repSig = l.map repSig := by
  intro l
  induction l with
  | nil => intro i; rfl
  | cons r rest ih =>
    intro i
    unfold monitorUpdate
    by_cases hs : r.status = "running"
    · rw [if_pos hs]
      simp only [List.map_cons]
      rw [ih (i + 1)]
      rfl
    · rw [if_neg hs]
      simp only [List.map_cons]
      rw [ih i]

/-- Bucket assignment preserves replica signatures. -/
theorem assignBuckets_sig : ∀ (l : List AgentReplica) (b : List (List String)) (i : Nat),
    (assignBuckets l b i).map repSig = l.map repSig := by
  intro l
  induction l with
  | nil => intro b i; rfl
  | cons r rest ih =>
    intro b i
    unfold assignBuckets
    by_cases hs : r.status = "running"
    · rw [if_pos hs]
      simp only [List.map_cons]
      rw [ih b (i + 1)]
      rfl
    · rw [if_neg hs]
      simp only [List.map_cons]
      rw [ih b i]

/-- Setting a replica's current task preserves signatures. -/
theorem setTask_sig (l : List AgentReplica) (rid : Nat) (t : Option String) :
    (setTask l rid t).map repSig = l.map repSig := by
  unfold setTask
  apply map_repSig_of_pointwise
  intro r
  show repSig (if r.replica_id = rid then { r with current_task := t } else r) = repSig r
  split_ifs <;> rfl

/-- Equal signature images give equal lengths. -/
theorem length_of_sig {l l' : List AgentReplica} (h : l'.map repSig = l.map repSig) :
    l'.length = l.length := by
  have h2 := congrArg List.length h
  simpa using h2

/-- Equal signature images give equal id images. -/
theorem idsMap_of_sig {l l' : List AgentReplica} (h : l'.map repSig = l.map repSig) :
    l'.map (fun r => r.replica_id) = l.map (fun r => r.replica_id) := by
  have h2 := congrArg (List.map Prod.fst) h
  rw [List.map_map, List.map_map] at h2
  exact h2

/-- Structural replica facts transfer across equal signature images. -/
theorem replicasInv_of_sig {l l' : List AgentReplica} {n : Nat}
    (h : l'.map repSig = l.map repSig) (hi : replicasInv l n) : replicasInv l' n := by
  obtain ⟨hall, hnd, hb⟩ := hi
  refine ⟨?_, ?_, ?_⟩
  · intro r hr
    have hm : repSig r ∈ l.map repSig := by
      rw [← h]
      exact List.mem_map_of_mem repSig hr
    rcases List.mem_map.mp hm with ⟨r0, hr0, hs⟩
    have hsnd := congrArg Prod.snd hs
    simp only [repSig] at hsnd
    rw [← hsnd]
    exact hall r0 hr0
  · rw [idsMap_of_sig h]
    exact hnd
  · intro r hr
    have hm : repSig r ∈ l.map repSig := by
      rw [← h]
      exact List.mem_map_of_mem repSig hr
    rcases List.mem_map.mp hm with ⟨r0, hr0, hs⟩
    have hfst := congrArg Prod.fst hs
    simp only [repSig] at hfst
    rw [← hfst]
    exact hb r0 hr0

/-- `_rebalance_partitions` either leaves the state unchanged or only replaces
the replica table by a bucket assignment. -/
theorem rebalance_cases (st : CoordState) :
    _rebalance_partitions st = st ∨
      _rebalance_partitions st = { st with replicas := assignBuckets st.replicas (rrDistribute (runningOf st).length st.all_services) 0 } := by
  by_cases hc : ((runningOf st).isEmpty || st.all_services.isEmpty) = true
  · left
    show (if (runningOf st).isEmpty || st.all_services.isEmpty then st
      else { st with replicas := assignBuckets st.replicas (rrDistribute (runningOf st).length st.all_services) 0 }) = st
    rw [if_pos hc]
  · right
    show (if (runningOf st).isEmpty || st.all_services.isEmpty then st
      else { st with replicas := assignBuckets st.replicas (rrDistribute (runningOf st).length st.all_services) 0 }) = _
    rw [if_neg hc]

/-- Rebalancing preserves replica signatures. -/
theorem rebalance_sig (st : CoordState) :
    (_rebalance_partitions st).replicas.map repSig = st.replicas.map repSig := by
  rcases rebalance_cases st with h | h
  · rw [h]
  · rw [h]
    exact assignBuckets_sig st.replicas _ 0

/-- Rebalancing only touches the replica table. -/
theorem rebalance_fields (st : CoordState) :
    (_rebalance_partitions st).next_uid = st.next_uid ∧
    (_rebalance_partitions st).scale_events = st.scale_events ∧
    (_rebalance_partitions st).last_scale_time = st.last_scale_time := by
  rcases rebalance_cases st with h | h <;> rw [h] <;> exact ⟨rfl, rfl, rfl⟩

/-- The coordinator invariant transfers across rebalancing. -/
theorem coordInv_rebalance {st : CoordState} (h : coordInv st) :
    coordInv (_rebalance_partitions st) := by
  obtain ⟨hri, hlo, hhi⟩ := h
  have hsig := rebalance_sig st
  have hlen := length_of_sig hsig
  refine ⟨?_, ?_, ?_⟩
  · rw [(rebalance_fields st).1]
    exact replicasInv_of_sig hsig hri
  · rw [hlen]; exact hlo
  · rw [hlen]; exact hhi

/-- Structural replica facts are preserved by filtering. -/
theorem replicasInv_filter (l : List AgentReplica) (p : AgentReplica → Bool) (n : Nat)
    (h : replicasInv l n) : replicasInv (l.filter p) n := by
  obtain ⟨hall, hnd, hb⟩ := h
  refine ⟨fun r hr => hall r (List.mem_of_mem_filter hr), ?_,
    fun r hr => hb r (List.mem_of_mem_filter hr)⟩
  exact List.Nodup.sublist (List.Sublist.map _ (List.filter_sublist l)) hnd

/-- Structural replica facts persist when the fresh-id counter grows. -/
theorem replicasInv_mono {l : List AgentReplica} {n m : Nat}
    (h : replicasInv l n) (hnm : n ≤ m) : replicasInv l m :=
  ⟨h.1, h.2.1, fun r hr => lt_of_lt_of_le (h.2.2 r hr) hnm⟩

/-- When every replica is running, the running view is the whole table. -/
theorem runningOf_eq_self (st : CoordState) (h : ∀ r ∈ st.replicas, r.status = "running") :
    runningOf st = st.replicas := by
  show st.replicas.filter (fun r => r.status = "running") = st.replicas
  apply List.filter_eq_self.mpr
  intro a ha
  simpa using h a ha

/-- Removing one id present in a duplicate-free table shrinks it by exactly
one entry. -/
theorem filter_ne_length : ∀ (l : List AgentReplica) (rid : Nat),
    (l.map (fun r => r.replica_id)).Nodup → (∃ r ∈ l, r.replica_id = rid) →
    (l.filter (fun r => r.replica_id ≠ rid)).length = l.length - 1 := by
  intro l
  induction l with
  | nil =>
    intro rid _ hm
    rcases hm with ⟨r, hr, _⟩
    exact absurd hr (List.not_mem_nil r)
  | cons a rest ih =>
    intro rid hnd hm
    rw [List.map_cons, List.nodup_cons] at hnd
    by_cases ha : a.replica_id = rid
    · rw [List.filter_cons_of_neg (by simp [ha])]
      have hall : rest.filter (fun r => r.replica_id ≠ rid) = rest := by
        apply List.filter_eq_self.mpr
        intro r hr
        simp only [decide_eq_true_eq]
        intro hrid
        exact hnd.1 (by rw [ha, ← hrid]; exact List.mem_map_of_mem _ hr)
      rw [hall]
      simp
    · rw [List.filter_cons_of_pos (by simp [ha])]
      rcases hm with ⟨r, hr, hrid⟩
      rcases List.mem_cons.mp hr with heq | hr'
      · rw [heq] at hrid
        exact absurd hrid ha
      · have hrest := ih rid hnd.2 ⟨r, hr', hrid⟩
        have hpos : 1 ≤ rest.length := List.length_pos.mpr (List.ne_nil_of_mem hr')
        rw [List.length_cons, hrest, List.length_cons]
        omega

/-- A successful scale-up decision implies room below the cap and an expired
cooldown. -/
theorem shouldScaleUp_elim (st : CoordState) (now : ℚ) (h : shouldScaleUp st now = true) :
    (runningOf st).length < MAX_AGENT_REPLICAS ∧ cooldownOk st now = true := by
  simp only [shouldScaleUp, Bool.or_eq_true, Bool.and_eq_true, decide_eq_true_eq] at h
  rcases h with (⟨⟨-, h1⟩, h2⟩ | ⟨⟨-, h1⟩, h2⟩) | ⟨⟨-, h1⟩, h2⟩ <;> exact ⟨h1, h2⟩

/-- A successful scale-down decision implies more than the minimum number of
running replicas and an expired cooldown. -/
theorem shouldScaleDown_elim (st : CoordState) (now : ℚ) (h : shouldScaleDown st now = true) :
    MIN_AGENT_REPLICAS < (runningOf st).length ∧ cooldownOk st now = true := by
  simp only [shouldScaleDown, Bool.and_eq_true, decide_eq_true_eq] at h
  exact ⟨h.2.1.2, h.2.2⟩

/-- With the cooldown unexpired no scale trigger fires. -/
theorem scale_decisions_false (st : CoordState) (now : ℚ)
    (h : cooldownOk st now = false) :
    shouldScaleUp st now = false ∧ shouldScaleDown st now = false := by
  constructor
  · simp only [shouldScaleUp, h, Bool.and_false, Bool.or_self]
  · simp only [shouldScaleDown, h, Bool.and_false]

/-- Python `min` returns an element of its argument. -/
theorem minByAssigned_mem : ∀ (rest : List AgentReplica) (b : AgentReplica),
    minByAssigned b rest ∈ b :: rest := by
  intro rest
  induction rest with
  | nil => intro b; exact List.mem_singleton.mpr rfl
  | cons r rest ih =>
    intro b
    unfold minByAssigned
    split
    · exact List.mem_cons_of_mem b (ih r)
    · rcases List.mem_cons.mp (ih b) with h | h
      · rw [h]
        exact List.mem_cons_self b (r :: rest)
      · exact List.mem_cons_of_mem b (List.mem_cons_of_mem r h)

/-- `_spawn_replica` is the rebalance of `spawnPre`. -/
theorem spawn_pre_eq (st : CoordState) (nm : Option String) (now : ℚ) (iso : String) :
    (_spawn_replica st nm now iso).1 = _rebalance_partitions (spawnPre st nm now iso) := rfl

/-- Appending a fresh running replica preserves the structural facts. -/
theorem replicasInv_append_fresh {l : List AgentReplica} {n : Nat}
    (h : replicasInv l n) (rep : AgentReplica)
    (hs : rep.status = "running") (hid : rep.replica_id = n) :
    replicasInv (l ++ [rep]) (n + 1) := by
  obtain ⟨hall, hnd, hb⟩ := h
  refine ⟨?_, ?_, ?_⟩
  · intro r hr
    rcases List.mem_append.mp hr with h1 | h1
    · exact hall r h1
    · rw [List.mem_singleton.mp h1]
      exact hs
  · rw [List.map_append]
    refine List.Nodup.append hnd (by simp) ?_
    intro a ha hmem
    rcases List.mem_map.mp ha with ⟨r0, hr0, hs0⟩
    have ha2 : a = n := by
      simp only [List.map_cons, List.map_nil, List.mem_singleton] at hmem
      rw [hmem, hid]
    have hlt := hb r0 hr0
    rw [hs0, ha2] at hlt
    exact absurd hlt (lt_irrefl n)
  · intro r hr
    rcases List.mem_append.mp hr with h1 | h1
    · exact Nat.lt_succ_of_lt (hb r h1)
    · rw [List.mem_singleton.mp h1, hid]
      exact Nat.lt_succ_self n

/-- `_spawn_replica` structural specification. -/
theorem spawn_spec (st : CoordState) (nm : Option String) (now : ℚ) (iso : String)
    (hri : replicasInv st.replicas st.next_uid) :
    replicasInv (_spawn_replica st nm now iso).1.replicas
      (_spawn_replica st nm now iso).1.next_uid ∧
    (_spawn_replica st nm now iso).1.replicas.length = st.replicas.length + 1 ∧
    (∃ ev, (_spawn_replica st nm now iso).1.scale_events = st.scale_events ++ [ev]) ∧
    (_spawn_replica st nm now iso).1.last_scale_time = now ∧
    (_spawn_replica st nm now iso).1.next_uid = st.next_uid + 1 := by
  rw [spawn_pre_eq]
  have hsig := rebalance_sig (spawnPre st nm now iso)
  have hf := rebalance_fields (spawnPre st nm now iso)
  have hpre_reps : (spawnPre st nm now iso).replicas =
      st.replicas ++ [newReplica st.next_uid (nm.getD ("forge-" ++ toString st.next_uid)) iso] := rfl
  have hpre_uid : (spawnPre st nm now iso).next_uid = st.next_uid + 1 := rfl
  have hlen := length_of_sig hsig
  refine ⟨?_, ?_, ?_, ?_, ?_⟩
  · rw [hf.1, hpre_uid]
    refine replicasInv_of_sig hsig ?_
    rw [hpre_reps]
    exact replicasInv_append_fresh hri _ rfl rfl
  · rw [hlen, hpre_reps]
    simp
  · exact ⟨_, by rw [hf.2.1]; rfl⟩
  · rw [hf.2.2]
    rfl
  · rw [hf.1, hpre_uid]

/-- `_kill_replica` is the rebalance of `killPre` when the victim resolves and
more than the minimum number of replicas remain. -/
theorem kill_pre_eq (st : CoordState) (rid : Nat) (now : ℚ) (iso : String)
    (rep : AgentReplica)
    (hfind : st.replicas.find? (fun r => r.replica_id = rid) = some rep)
    (hlen : ¬ st.replicas.length ≤ MIN_AGENT_REPLICAS) :
    _kill_replica st rid now iso = _rebalance_partitions (killPre st rep rid now iso) := by
  unfold _kill_replica
  rw [hfind]
  show (if st.replicas.length ≤ MIN_AGENT_REPLICAS then st
    else _rebalance_partitions (killPre st rep rid now iso)) = _
  rw [if_neg hlen]

/-- `_kill_replica` structural specification, under the invariant. -/
theorem kill_spec (st : CoordState) (rid : Nat) (now : ℚ) (iso : String)
    (hri : replicasInv st.replicas st.next_uid)
    (hmem : ∃ r ∈ st.replicas, r.replica_id = rid)
    (hlen2 : 2 ≤ st.replicas.length) :
    replicasInv (_kill_replica st rid now iso).replicas
      (_kill_replica st rid now iso).next_uid ∧
    (_kill_replica st rid now iso).replicas.length = st.replicas.length - 1 ∧
    (∃ ev, (_kill_replica st rid now iso).scale_events = st.scale_events ++ [ev]) ∧
    (_kill_replica st rid now iso).last_scale_time = now ∧
    (_kill_replica st rid now iso).next_uid = st.next_uid := by
  have hfs : (st.replicas.find? (fun r => r.replica_id = rid)).isSome := by
    rw [List.find?_isSome]
    rcases hmem with ⟨r, hr, hrid⟩
    exact ⟨r, hr, by simpa using hrid⟩
  rcases Option.isSome_iff_exists.mp hfs with ⟨rep, hfind⟩
  have hnot : ¬ st.replicas.length ≤ MIN_AGENT_REPLICAS := by
    show ¬ st.replicas.length ≤ 1
    omega
  rw [kill_pre_eq st rid now iso rep hfind hnot]
  have hsig := rebalance_sig (killPre st rep rid now iso)
  have hf := rebalance_fields (killPre st rep rid now iso)
  have hpre_reps : (killPre st rep rid now iso).replicas =
      st.replicas.filter (fun r => r.replica_id ≠ rid) := rfl
  have hpre_uid : (killPre st rep rid now iso).next_uid = st.next_uid := rfl
  have hlen := length_of_sig hsig
  refine ⟨?_, ?_, ?_, ?_, ?_⟩
  · rw [hf.1, hpre_uid]
    refine replicasInv_of_sig hsig ?_
    rw [hpre_reps]
    exact replicasInv_filter st.replicas _ st.next_uid hri
  · rw [hlen, hpre_reps]
    exact filter_ne_length st.replicas rid hri.2.1 hmem
  · exact ⟨_, by rw [hf.2.1]; rfl⟩
  · rw [hf.2.2]
    rfl
  · rw [hf.1, hpre_uid]

/-- `dequeue` leaves signatures, the id counter, the event log, and the
scale clock unchanged. -/
theorem coordDequeue_shape (st : CoordState) (rid : Nat) :
    (coordDequeue st rid).1.replicas.map repSig = st.replicas.map repSig ∧
    (coordDequeue st rid).1.next_uid = st.next_uid ∧
    (coordDequeue st rid).1.scale_events = st.scale_events ∧
    (coordDequeue st rid).1.last_scale_time = st.last_scale_time := by
  cases h : (markFirstPending st.work_queue rid).2 with
  | none =>
    simp only [coordDequeue, h]
    refine ⟨?_, ?_, ?_, ?_⟩ <;> trivial
  | some item =>
    simp only [coordDequeue, h]
    refine ⟨?_, ?_, ?_, ?_⟩
    · split
      · exact setTask_sig st.replicas rid _
      · rfl
    · trivial
    · trivial
    · trivial

/-- The dispatch phase leaves signatures, the id counter, the event log, and
the scale clock unchanged. -/
theorem tickDispatch_shape (caps : List (Nat × Option String)) :
    ∀ (st : CoordState),
      (tickDispatch st caps).replicas.map repSig = st.replicas.map repSig ∧
      (tickDispatch st caps).next_uid = st.next_uid ∧
      (tickDispatch st caps).scale_events = st.scale_events ∧
      (tickDispatch st caps).last_scale_time = st.last_scale_time := by
  induction caps with
  | nil => intro st; exact ⟨rfl, rfl, rfl, rfl⟩
  | cons c rest ih =>
    intro st
    have hstep : tickDispatch st (c :: rest) =
        tickDispatch (if c.2 = none then (coordDequeue st c.1).1 else st) rest := rfl
    rw [hstep]
    by_cases hc : c.2 = none
    · rw [if_pos hc]
      obtain ⟨h1, h2, h3, h4⟩ := ih (coordDequeue st c.1).1
      obtain ⟨g1, g2, g3, g4⟩ := coordDequeue_shape st c.1
      exact ⟨h1.trans g1, h2.trans g2, h3.trans g3, h4.trans g4⟩
    · rw [if_neg hc]
      exact ih st

/-- `complete_work` leaves signatures, the id counter, the event log, and the
scale clock unchanged. -/
theorem complete_work_shape (st : CoordState) (wid : Nat) (s : Bool) :
    (complete_work st wid s).replicas.map repSig = st.replicas.map repSig ∧
    (complete_work st wid s).next_uid = st.next_uid ∧
    (complete_work st wid s).scale_events = st.scale_events ∧
    (complete_work st wid s).last_scale_time = st.last_scale_time := by
  cases hx : extractFirst st.work_queue wid with
  | none =>
    simp only [complete_work, hx]
    refine ⟨?_, ?_, ?_, ?_⟩ <;> trivial
  | some r =>
    simp only [complete_work, hx]
    refine ⟨?_, ?_, ?_, ?_⟩
    case refine_2 => trivial
    case refine_3 => trivial
    case refine_4 => trivial
    cases ha : r.2.assigned_to with
    | none => simp only [ha]
    | some rid =>
      simp only [ha]
      apply map_repSig_of_pointwise
      intro x
      show repSig (if x.replica_id = rid
        then { x with analyses_completed := x.analyses_completed + 1, current_task := none }
        else x) = repSig x
      split_ifs <;> rfl

/-- Plan/execute phase specification: the invariant is preserved, at most one
scale event is appended, nothing happens while the cooldown is unexpired, and
a scale action implies an expired cooldown and resets the scale clock. -/
theorem tickExecute_spec (st : CoordState) (now : ℚ) (iso : String) (hinv : coordInv st) :
    coordInv (tickExecute st now iso).1 ∧
    (∃ evs, (tickExecute st now iso).1.scale_events = st.scale_events ++ evs ∧ evs.length ≤ 1) ∧
    (cooldownOk st now = false →
      (tickExecute st now iso).1 = st ∧ (tickExecute st now iso).2 = "none") ∧
    ((tickExecute st now iso).2 ≠ "none" →
      cooldownOk st now = true ∧ (tickExecute st now iso).1.last_scale_time = now) := by
  obtain ⟨hri, hlo, hhi⟩ := hinv
  have hlo1 : 1 ≤ st.replicas.length := hlo
  have hhi6 : st.replicas.length ≤ 6 := hhi
  have hrun : runningOf st = st.replicas := runningOf_eq_self st hri.1
  by_cases hup : shouldScaleUp st now = true
  · have hex : tickExecute st now iso =
        ((_spawn_replica st none now iso).1,
          "spawned " ++ (_spawn_replica st none now iso).2.name) := by
      unfold tickExecute
      rw [if_pos hup]
    have hcap : (runningOf st).length < MAX_AGENT_REPLICAS := (shouldScaleUp_elim st now hup).1
    have hcd : cooldownOk st now = true := (shouldScaleUp_elim st now hup).2
    rw [hrun] at hcap
    have hcap6 : st.replicas.length < 6 := hcap
    obtain ⟨hri', hlen', hev', hlast', huid'⟩ := spawn_spec st none now iso hri
    rw [hex]
    refine ⟨⟨hri', ?_, ?_⟩, ⟨_, hev'.choose_spec, by simp⟩, ?_, ?_⟩
    · show 1 ≤ (_spawn_replica st none now iso).1.replicas.length
      rw [hlen']
      omega
    · show (_spawn_replica st none now iso).1.replicas.length ≤ 6
      rw [hlen']
      omega
    · intro hcf
      rw [hcd] at hcf
      exact absurd hcf (by simp)
    · intro _
      exact ⟨hcd, hlast'⟩
  · by_cases hdn : shouldScaleDown st now = true
    · have hmin : MIN_AGENT_REPLICAS < (runningOf st).length := (shouldScaleDown_elim st now hdn).1
      have hcd : cooldownOk st now = true := (shouldScaleDown_elim st now hdn).2
      have hmin1 : 1 < st.replicas.length := by rw [hrun] at hmin; exact hmin
      cases hrc : runningOf st with
      | nil =>
        rw [hrc] at hmin
        exact absurd hmin (by simp [MIN_AGENT_REPLICAS])
      | cons b rest =>
        have hex0 : tickExecute st now iso =
            (if (minByAssigned b rest).name ≠ "forge-primary"
              then (_kill_replica st (minByAssigned b rest).replica_id now iso,
                    "killed " ++ (minByAssigned b rest).name)
              else (st, "none")) := by
          unfold tickExecute
          rw [if_neg hup, if_pos hdn, hrc]
        by_cases hpn : (minByAssigned b rest).name = "forge-primary"
        · have hex : tickExecute st now iso = (st, "none") := by
            rw [hex0, if_neg (by simpa using hpn)]
          rw [hex]
          exact ⟨⟨hri, hlo, hhi⟩, ⟨[], by simp, by simp⟩, fun _ => ⟨rfl, rfl⟩,
            fun hne => absurd rfl hne⟩
        · have hex : tickExecute st now iso =
              (_kill_replica st (minByAssigned b rest).replica_id now iso,
                "killed " ++ (minByAssigned b rest).name) := by
            rw [hex0, if_pos hpn]
          have hmemrun : minByAssigned b rest ∈ runningOf st := by
            rw [hrc]
            exact minByAssigned_mem rest b
          have hmem : ∃ r ∈ st.replicas, r.replica_id = (minByAssigned b rest).replica_id := by
            refine ⟨minByAssigned b rest, ?_, rfl⟩
            rw [← hrun]
            exact hmemrun
          have hlen2 : 2 ≤ st.replicas.length := by omega
          obtain ⟨hri', hlen', hev', hlast', huid'⟩ :=
            kill_spec st (minByAssigned b rest).replica_id now iso hri hmem hlen2
          rw [hex]
          refine ⟨⟨hri', ?_, ?_⟩, ⟨_, hev'.choose_spec, by simp⟩, ?_, ?_⟩
          · show 1 ≤ (_kill_replica st (minByAssigned b rest).replica_id now iso).replicas.length
            rw [hlen']
            omega
          · show (_kill_replica st (minByAssigned b rest).replica_id now iso).replicas.length ≤ 6
            rw [hlen']
            omega
          · intro hcf
            rw [hcd] at hcf
            exact absurd hcf (by simp)
          · intro _
            exact ⟨hcd, hlast'⟩
    · have hex : tickExecute st now iso = (st, "none") := by
        unfold tickExecute
        rw [if_neg hup, if_neg hdn]
      rw [hex]
      exact ⟨⟨hri, hlo, hhi⟩, ⟨[], by simp, by simp⟩, fun _ => ⟨rfl, rfl⟩,
        fun hne => absurd rfl hne⟩

/-- Full `mape_k_tick` specification: the invariant is preserved, at most one
scale event is appended per tick, a tick within the cooldown window (including
the exact boundary) takes no scale action, and any scale action implies the
cooldown had strictly expired and resets the scale clock to `now`. -/
theorem mape_k_tick_spec (st : CoordState) (now : ℚ) (iso : String) (rand : Nat → ℚ × ℚ)
    (hinv : coordInv st) :
    coordInv (mape_k_tick st now iso rand).1 ∧
    (∃ evs, (mape_k_tick st now iso rand).1.scale_events = st.scale_events ++ evs ∧
      evs.length ≤ 1) ∧
    (now - st.last_scale_time ≤ SCALE_COOLDOWN_SECONDS →
      (mape_k_tick st now iso rand).2 = "none" ∧
      (mape_k_tick st now iso rand).1.scale_events = st.scale_events) ∧
    ((mape_k_tick st now iso rand).2 ≠ "none" →
      SCALE_COOLDOWN_SECONDS < now - st.last_scale_time ∧
      (mape_k_tick st now iso rand).1.last_scale_time = now) := by
  have hm1 : (mape_k_tick st now iso rand).1 =
      tickDispatch (tickExecute (monSt st rand iso) now iso).1
        ((runningOf (monSt st rand iso)).map (fun x => (x.replica_id, x.current_task))) := rfl
  have hm2 : (mape_k_tick st now iso rand).2 = (tickExecute (monSt st rand iso) now iso).2 := rfl
  have hmonsig : (monSt st rand iso).replicas.map repSig = st.replicas.map repSig :=
    monitorUpdate_sig rand iso st.replicas 0
  have hinv1 : coordInv (monSt st rand iso) := by
    obtain ⟨hri, hlo, hhi⟩ := hinv
    refine ⟨replicasInv_of_sig hmonsig hri, ?_, ?_⟩
    · rw [length_of_sig hmonsig]
      exact hlo
    · rw [length_of_sig hmonsig]
      exact hhi
  obtain ⟨hinv2, hevs, hcool, hact⟩ := tickExecute_spec (monSt st rand iso) now iso hinv1
  obtain ⟨hd1, hd2, hd3, hd4⟩ := tickDispatch_shape
    ((runningOf (monSt st rand iso)).map (fun x => (x.replica_id, x.current_task)))
    (tickExecute (monSt st rand iso) now iso).1
  refine ⟨?_, ?_, ?_, ?_⟩
  · rw [hm1]
    obtain ⟨hri2, hlo2, hhi2⟩ := hinv2
    refine ⟨?_, ?_, ?_⟩
    · rw [hd2]
      exact replicasInv_of_sig hd1 hri2
    · rw [length_of_sig hd1]
      exact hlo2
    · rw [length_of_sig hd1]
      exact hhi2
  · rw [hm1, hd3]
    exact hevs
  · intro h
    have hcdf : cooldownOk (monSt st rand iso) now = false :=
      decide_eq_false (not_lt.mpr h)
    obtain ⟨hst, hnone⟩ := hcool hcdf
    refine ⟨?_, ?_⟩
    · rw [hm2, hnone]
    · rw [hm1, hd3, hst]
      rfl
  · intro hne
    rw [hm2] at hne
    obtain ⟨hcd, hlast⟩ := hact hne
    refine ⟨of_decide_eq_true hcd, ?_⟩
    rw [hm1, hd4]
    exact hlast

/-- The invariant ignores the event log. -/
theorem coordInv_events (st : CoordState) (evs : List ScaleEvent) (h : coordInv st) :
    coordInv { st with scale_events := evs } := h

/-- The invariant ignores the pending-validation slot. -/
theorem coordInv_pending (st : CoordState) (p : Option (String × Nat)) (h : coordInv st) :
    coordInv { st with pending_validation := p } := h

/-- The manual-scale route preserves the invariant (errors leave the state
unchanged; a successful scale-up happens strictly below the cap). -/
theorem manual_scale_state_inv (st : CoordState) (d r : String) (now : ℚ) (iso : String)
    (hinv : coordInv st) :
    coordInv (match manual_scale st d r now iso with
      | .ok res => res.1
      | .error _ => st) := by
  by_cases hd : d = "up"
  · by_cases hmax : st.replicas.length ≥ 6
    · have hms : manual_scale st d r now iso =
          .error (.badRequest "Maximum replica count reached (6)") := by
        unfold manual_scale
        rw [if_pos hd, if_pos hmax]
      rw [hms]
      exact hinv
    · have hms : manual_scale st d r now iso =
          .ok (manualUpState st r now iso, "scale_up") := by
        unfold manual_scale
        rw [if_pos hd, if_neg hmax]
        rfl
      rw [hms]
      show coordInv (manualUpState st r now iso)
      have hlen5 : st.replicas.length ≤ 5 := by omega
      have hinv0 : coordInv { st with last_scale_time := 0 } := hinv
      obtain ⟨hri', hlen', hev', hlast', huid'⟩ :=
        spawn_spec { st with last_scale_time := 0 } none now iso hinv0.1
      have hst0 : ({ st with last_scale_time := 0 } : CoordState).replicas.length =
          st.replicas.length := rfl
      have h1 : coordInv (_spawn_replica { st with last_scale_time := 0 } none now iso).1 := by
        refine ⟨hri', ?_, ?_⟩
        · show 1 ≤ (_spawn_replica { st with last_scale_time := 0 } none now iso).1.replicas.length
          rw [hlen']
          omega
        · show (_spawn_replica { st with last_scale_time := 0 } none now iso).1.replicas.length ≤ 6
          rw [hlen', hst0]
          omega
      have h2 : coordInv { (_spawn_replica { st with last_scale_time := 0 } none now iso).1 with
          scale_events := (_spawn_replica { st with last_scale_time := 0 } none now iso).1.scale_events ++
            [{ event := "spawn", replica_id := none,
               name := (_spawn_replica { st with last_scale_time := 0 } none now iso).2.name,
               timestamp := iso, reason := "manual: " ++ r,
               total_replicas := (_spawn_replica { st with last_scale_time := 0 } none now iso).1.replicas.length }] } := h1
      exact coordInv_rebalance h2
  · by_cases hd2 : d = "down"
    · by_cases hmin : st.replicas.length ≤ 1
      · have hms : manual_scale st d r now iso =
            .error (.badRequest "Cannot scale below 1 replica") := by
          unfold manual_scale
          rw [if_neg hd, if_pos hd2, if_pos hmin]
        rw [hms]
        exact hinv
      · have hms : manual_scale st d r now iso = .error .keyError := by
          unfold manual_scale
          rw [if_neg hd, if_pos hd2, if_neg hmin, replicaDictIntKey_eq_none]
        rw [hms]
        exact hinv
    · have hms : manual_scale st d r now iso =
          .error (.badRequest "direction must be up or down") := by
        unfold manual_scale
        rw [if_neg hd, if_neg hd2]
      rw [hms]
      exact hinv

/-- `enqueue` preserves the invariant. -/
theorem coordEnqueue_inv (st : CoordState) (s t : String) (p : Int) (iso : String)
    (h : coordInv st) : coordInv (coordEnqueue st s t p iso).1 := by
  obtain ⟨hri, hlo, hhi⟩ := h
  exact ⟨replicasInv_mono hri (Nat.le_succ _), hlo, hhi⟩

/-- `complete_work` preserves the invariant. -/
theorem complete_work_inv (st : CoordState) (wid : Nat) (s : Bool) (h : coordInv st) :
    coordInv (complete_work st wid s) := by
  obtain ⟨hri, hlo, hhi⟩ := h
  obtain ⟨h1, h2, h3, h4⟩ := complete_work_shape st wid s
  refine ⟨?_, ?_, ?_⟩
  · rw [h2]
    exact replicasInv_of_sig h1 hri
  · rw [length_of_sig h1]
    exact hlo
  · rw [length_of_sig h1]
    exact hhi

/-- `set_services` preserves the invariant. -/
theorem set_services_inv (st : CoordState) (svcs : List String) (h : coordInv st) :
    coordInv (set_services st svcs) := by
  show coordInv (_rebalance_partitions { st with all_services := svcs })
  have h2 : coordInv { st with all_services := svcs } := h
  exact coordInv_rebalance h2

/-- The simulate-load tick loop preserves the invariant. -/
theorem simLoop_inv : ∀ (fuel j : Nat) (times : Nat → ℚ) (isos : Nat → String)
    (rands : Nat → Nat → ℚ × ℚ) (st : CoordState), coordInv st →
    coordInv (simLoop st fuel j times isos rands) := by
  intro fuel
  induction fuel with
  | zero => intro j times isos rands st h; exact h
  | succ fuel ih =>
    intro j times isos rands st h
    show coordInv (if (mape_k_tick { st with last_scale_time := 0 } (times j) (isos j) (rands j)).2 = "none"
      then (mape_k_tick { st with last_scale_time := 0 } (times j) (isos j) (rands j)).1
      else simLoop (mape_k_tick { st with last_scale_time := 0 } (times j) (isos j) (rands j)).1
        fuel (j + 1) times isos rands)
    have h0 : coordInv { st with last_scale_time := 0 } := h
    have h1 := (mape_k_tick_spec { st with last_scale_time := 0 } (times j) (isos j) (rands j) h0).1
    split
    · exact h1
    · exact ih (j + 1) times isos rands _ h1

/-- The simulate-load route preserves the invariant. -/
theorem simulate_load_inv (st : CoordState) (count : Nat) (isoEnq : String)
    (times : Nat → ℚ) (isos : Nat → String) (rands : Nat → Nat → ℚ × ℚ)
    (h : coordInv st) : coordInv (simulate_load st count isoEnq times isos rands) := by
  have hfold : ∀ (l : List Nat) (svcs : List String) (acc : CoordState), coordInv acc →
      coordInv (l.foldl (fun acc i =>
        (coordEnqueue acc (svcs.getD (i % svcs.length) "") "analyze" (i : Int) isoEnq).1) acc) := by
    intro l
    induction l with
    | nil => intro svcs acc ha; exact ha
    | cons x xs ih =>
      intro svcs acc ha
      exact ih svcs _ (coordEnqueue_inv acc _ _ _ _ ha)
  have hres : simulate_load st count isoEnq times isos rands =
      { simLoop ((List.range count).foldl (fun acc i =>
          (coordEnqueue acc ((simSvcs st).getD (i % (simSvcs st).length) "") "analyze" (i : Int) isoEnq).1) st)
        (min count 4) 0 times isos rands with pending_validation := none } := rfl
  rw [hres]
  exact coordInv_pending _ none
    (simLoop_inv (min count 4) 0 times isos rands _ (hfold (List.range count) (simSvcs st) st h))

/-- Every coordinator operation preserves the invariant. -/
theorem runOp_inv (st : CoordState) (op : CoordOp) (h : coordInv st) : coordInv (runOp st op) := by
  cases op with
  | tick now iso rand =>
    show coordInv { (mape_k_tick st now iso rand).1 with pending_validation := none }
    exact coordInv_pending _ none (mape_k_tick_spec st now iso rand h).1
  | enq s t p iso => exact coordEnqueue_inv st s t p iso h
  | scale d r now iso => exact manual_scale_state_inv st d r now iso h
  | simLoad c iso times isos rands => exact simulate_load_inv st c iso times isos rands h
  | complete wid s => exact complete_work_inv st wid s h
  | setSvcs svcs => exact set_services_inv st svcs h

/-- Operation sequences preserve the invariant. -/
theorem runOps_inv (ops : List CoordOp) : ∀ (st : CoordState), coordInv st →
    coordInv (runOps st ops) := by
  induction ops with
  | nil => intro st h; exact h
  | cons op rest ih => intro st h; exact ih _ (runOp_inv st op h)

/-- The freshly initialised coordinator satisfies the invariant. -/
theorem initCoordState_inv (now0 : ℚ) (iso0 : String) : coordInv (initCoordState now0 iso0) := by
  have hreps : (initCoordState now0 iso0).replicas = [newReplica 0 "forge-primary" iso0] := rfl
  have huid : (initCoordState now0 iso0).next_uid = 1 := rfl
  refine ⟨⟨?_, ?_, ?_⟩, ?_, ?_⟩
  · intro r hr
    rw [hreps] at hr
    rw [List.mem_singleton.mp hr]
    rfl
  · rw [hreps]
    simp
  · intro r hr
    rw [hreps] at hr
    rw [huid, List.mem_singleton.mp hr]
    exact Nat.zero_lt_one
  · show 1 ≤ (initCoordState now0 iso0).replicas.length
    rw [hreps]
    simp
  · show (initCoordState now0 iso0).replicas.length ≤ 6
    rw [hreps]
    simp

/-- Claim C1: for any sequence of coordinator operations (ticks, enqueues,
manual scales, simulated load, completions, service updates) starting from the
freshly initialised coordinator, the replica count stays within
`[MIN_AGENT_REPLICAS, MAX_AGENT_REPLICAS] = [1, 6]`; a single `mape_k_tick` on
an invariant-satisfying state appends at most one scale event (one spawn or
one kill, never both); a tick whose elapsed time since the last scale action
is at most `SCALE_COOLDOWN_SECONDS` — including exactly at the boundary —
performs no scale action; and a tick that does scale had a strictly expired
cooldown and resets `last_scale_time` to `now`, so two consecutive
non-bypassed tick scale actions are always strictly more than
`SCALE_COOLDOWN_SECONDS` apart. -/
theorem C1_coordinator_invariants (now0 : ℚ) (iso0 : String) (ops : List CoordOp)
    (st : CoordState) (hst : coordInv st) (now : ℚ) (iso : String) (rand : Nat → ℚ × ℚ) :
    (MIN_AGENT_REPLICAS ≤ (runOps (initCoordState now0 iso0) ops).replicas.length ∧
      (runOps (initCoordState now0 iso0) ops).replicas.length ≤ MAX_AGENT_REPLICAS) ∧
    (∃ evs, (mape_k_tick st now iso rand).1.scale_events = st.scale_events ++ evs ∧
      evs.length ≤ 1) ∧
    (now - st.last_scale_time ≤ SCALE_COOLDOWN_SECONDS →
      (mape_k_tick st now iso rand).2 = "none" ∧
      (mape_k_tick st now iso rand).1.scale_events = st.scale_events) ∧
    ((mape_k_tick st now iso rand).2 ≠ "none" →
      SCALE_COOLDOWN_SECONDS < now - st.last_scale_time ∧
      (mape_k_tick st now iso rand).1.last_scale_time = now) := by
  obtain ⟨-, hm2, hm3, hm4⟩ := mape_k_tick_spec st now iso rand hst
  have hrun := runOps_inv ops (initCoordState now0 iso0) (initCoordState_inv now0 iso0)
  exact ⟨⟨hrun.2.1, hrun.2.2⟩, hm2, hm3, hm4⟩

/-- Witness for `C1_coordinator_invariants`: the freshly initialised
coordinator satisfies the invariant, and the replica-count bounds hold for
the empty operation sequence. -/
theorem C1_coordinator_invariants_witness :
    coordInv (initCoordState 0 "t0") ∧
    MIN_AGENT_REPLICAS ≤ (runOps (initCoordState 0 "t0") []).replicas.length ∧
    (runOps (initCoordState 0 "t0") []).replicas.length ≤ MAX_AGENT_REPLICAS :=
  ⟨by unfold coordInv replicasInv; decide,
    (C1_coordinator_invariants 0 "t0" [] (initCoordState 0 "t0")
      (by unfold coordInv replicasInv; decide) 0 "t0" (fun _ => (0, 0))).1.1,
    (C1_coordinator_invariants 0 "t0" [] (initCoordState 0 "t0")
      (by unfold coordInv replicasInv; decide) 0 "t0" (fun _ => (0, 0))).1.2⟩
